import Mathlib

/-!
Verification of the file-conversion web application's conversion pipeline.

The definitions below are a shallow embedding of the TypeScript sources:
  - src/src/types.ts              (data model, type tables, size limits)
  - src/src/utils/fileValidator.ts (classifier and validator)
  - src/src/converters/htmlToPdf.ts (markdown transpiler, html and text converters)
  - src/unnamed/part_001          (docx converter)
  - src/unnamed/part_002          (image converter and placement engine)
  - src/src/hooks/useFileConverter.ts (pipeline orchestrator / dispatch)

External collaborators (browser file reading, jsPDF text wrapping, html2canvas
rasterization, JSZip binary decoding, PDF byte emission) are modelled as
function parameters or abstract data carried on the file record; everything
the repository itself computes is translated directly.

Numbers that the source manipulates as JS doubles (millimetre geometry,
progress percentages) are modelled as exact rationals; byte sizes are
naturals.  JS regular-expression passes are implemented as explicit,
fuel-indexed scanners realising the exact matching semantics of the regex
they translate (leftmost match, lazy or greedy as in the pattern, global
continuation after each replacement).
-/

namespace FileConv

/-- FileType from src/src/types.ts. -/
inductive FileType where
  | image | text | html | markdown | docx | unknown
  deriving DecidableEq, Repr, Inhabited

/-- A browser `File` as the pipeline observes it.  `name`, `mime` (the declared
MIME type) and `size` are what the validator reads; `content` stands for the
text obtained by the external `readAsText`, `imgWidth`/`imgHeight` for the
natural dimensions of the externally decoded image, and `entries` for the
zip entries (path, stored data) exposed by the external archive collaborator
for docx files. -/
structure JsFile where
  name : String
  mime : String
  size : Nat
  content : String
  imgWidth : Nat
  imgHeight : Nat
  entries : List (String × String)
  deriving DecidableEq, Repr, Inhabited

/-- SUPPORTED_MIME_TYPES table from src/src/types.ts. -/
def SUPPORTED_MIME_TYPES (m : String) : Option FileType :=
  if m = "image/png" then some .image
  else if m = "image/jpeg" then some .image
  else if m = "image/jpg" then some .image
  else if m = "image/gif" then some .image
  else if m = "image/tiff" then some .image
  else if m = "image/webp" then some .image
  else if m = "text/plain" then some .text
  else if m = "text/html" then some .html
  else if m = "text/markdown" then some .markdown
  else if m = "application/vnd.openxmlformats-officedocument.wordprocessingml.document" then some .docx
  else none

/-- EXTENSION_TO_TYPE table from src/src/types.ts. -/
def EXTENSION_TO_TYPE (e : String) : Option FileType :=
  if e = ".png" then some .image
  else if e = ".jpg" then some .image
  else if e = ".jpeg" then some .image
  else if e = ".gif" then some .image
  else if e = ".tiff" then some .image
  else if e = ".tif" then some .image
  else if e = ".webp" then some .image
  else if e = ".txt" then some .text
  else if e = ".html" then some .html
  else if e = ".htm" then some .html
  else if e = ".md" then some .markdown
  else if e = ".markdown" then some .markdown
  else if e = ".docx" then some .docx
  else none

/-- MAX_FILE_SIZE from src/src/types.ts: 10 MiB per file. -/
def MAX_FILE_SIZE : Nat := 10 * 1024 * 1024

/-- MAX_TOTAL_SIZE from src/src/types.ts: 50 MiB per batch. -/
def MAX_TOTAL_SIZE : Nat := 50 * 1024 * 1024

/-- JS `String.prototype.split` with a single-character separator, on char
lists: `"".split(sep)` is `[""]`, separators at the ends produce empty
segments, exactly as in JS. -/
def splitChar (sep : Char) : List Char → List (List Char)
  | [] => [[]]
  | c :: cs =>
      let r := splitChar sep cs
      if c = sep then [] :: r else (c :: r.headI) :: r.tail

/-- detectFileType from src/src/utils/fileValidator.ts: declared MIME type
first (the JS truthiness test on `file.type` fails for the empty string),
then the lowercased suffix after the last dot of the filename, else
`unknown`. -/
def detectFileType (f : JsFile) : FileType :=
  match (if f.mime = "" then none else SUPPORTED_MIME_TYPES f.mime) with
  | some t => t
  | none =>
      let ext := String.mk ('.' :: ((splitChar '.' f.name.data).getLastD []).map Char.toLower)
      match EXTENSION_TO_TYPE ext with
      | some t => t
      | none => .unknown

/-- The validator's error reports.  The source builds human-readable strings;
we keep the identifying content of each message (which limit was exceeded /
which file offends) and omit the `formatFileSize` pretty-printing that is
interpolated into them. -/
inductive VError where
  | totalTooLarge (totalSize : Nat)
  | fileTooLarge (name : String) (size : Nat)
  | unsupportedType (name : String)
  deriving DecidableEq, Repr

/-- ValidationResult from src/src/types.ts. -/
structure ValidationResult where
  valid : Bool
  error : Option VError
  type : Option FileType
  deriving DecidableEq, Repr

/-- validateFile from src/src/utils/fileValidator.ts: per-file size ceiling
first, then the classifier check. -/
def validateFile (f : JsFile) : ValidationResult :=
  if f.size > MAX_FILE_SIZE then
    ⟨false, some (.fileTooLarge f.name f.size), none⟩
  else
    let t := detectFileType f
    if t = .unknown then
      ⟨false, some (.unsupportedType f.name), none⟩
    else
      ⟨true, none, some t⟩

/-- Total batch size: `files.reduce((sum, f) => sum + f.size, 0)`. -/
def totalSize (files : List JsFile) : Nat :=
  files.foldl (fun sum f => sum + f.size) 0

/-- The `for (const file of files)` loop of validateFiles: first invalid
per-file result short-circuits. -/
def validateFilesLoop : List JsFile → ValidationResult
  | [] => ⟨true, none, none⟩
  | f :: rest =>
      let result := validateFile f
      if result.valid then validateFilesLoop rest else result

/-- validateFiles from src/src/utils/fileValidator.ts: aggregate size ceiling
over the whole batch first, then each file in list order. -/
def validateFiles (files : List JsFile) : ValidationResult :=
  if totalSize files > MAX_TOTAL_SIZE then
    ⟨false, some (.totalTooLarge (totalSize files)), none⟩
  else
    validateFilesLoop files

/-- Page-size option from ConversionOptions in src/src/types.ts. -/
inductive PageSizeOpt where
  | A4 | letter | fit
  deriving DecidableEq, Repr

/-- ConversionOptions from src/src/types.ts (quality and margin are JS
numbers, modelled as exact rationals). -/
structure ConversionOptions where
  pageSize : PageSizeOpt
  quality : ℚ
  margin : ℚ
  deriving DecidableEq, Repr

/-- Page dimensions in millimetres. -/
structure PageDims where
  width : ℚ
  height : ℚ
  deriving DecidableEq, Repr

/-- PAGE_SIZES table (identical copies live in the html, text and image
converters). -/
def PAGE_SIZES : PageSizeOpt → PageDims
  | .A4 => ⟨210, 297⟩
  | .letter => ⟨215.9, 279.4⟩
  | .fit => ⟨210, 297⟩

/-- ConversionResult from src/src/types.ts: the emitted PDF blob itself is
produced by the external jsPDF collaborator and is not modelled; we keep the
suggested filename and the page count (an `Int`, since the source computes it
with `Math.ceil`). -/
structure ConversionResult where
  filename : String
  pageCount : ℤ
  deriving DecidableEq, Repr

/-- MAX_DIMENSION from src/unnamed/part_002: raster bound in pixels. -/
def MAX_DIMENSION : ℕ := 4096

/-- constrainDimensions from src/unnamed/part_002: downscale (never upscale)
to fit within MAX_DIMENSION on both axes, preserving aspect ratio, flooring
to whole pixels. -/
def constrainDimensions (width height : ℕ) : ℕ × ℕ :=
  if width ≤ MAX_DIMENSION ∧ height ≤ MAX_DIMENSION then (width, height)
  else
    let r : ℚ := min ((MAX_DIMENSION : ℚ) / width) ((MAX_DIMENSION : ℚ) / height)
    (⌊(width : ℚ) * r⌋.toNat, ⌊(height : ℚ) * r⌋.toNat)

/-- An image's placement rectangle on a PDF page (millimetres). -/
structure Placement where
  x : ℚ
  y : ℚ
  width : ℚ
  height : ℚ
  deriving DecidableEq, Repr

/-- calculatePlacement from src/unnamed/part_002: aspect-preserving,
centered placement of an image inside the page's content box. -/
def calculatePlacement (imgWidth imgHeight pageWidth pageHeight margin : ℚ) : Placement :=
  let availWidth := pageWidth - margin * 2
  let availHeight := pageHeight - margin * 2
  let imgAspect := imgWidth / imgHeight
  let pageAspect := availWidth / availHeight
  let wh : ℚ × ℚ :=
    if imgAspect > pageAspect then
      (availWidth, availWidth / imgAspect)
    else
      (availHeight * imgAspect, availHeight)
  let x := margin + (availWidth - wh.1) / 2
  let y := margin + (availHeight - wh.2) / 2
  ⟨x, y, wh.1, wh.2⟩

/-- Page dimensions chosen per image by imagesToPdf (src/unnamed/part_002,
the `fit` branch sizes the page from the constrained canvas dimensions). -/
def imagePageDims (canvasW canvasH : ℕ) (options : ConversionOptions) : PageDims :=
  let pageSize := PAGE_SIZES options.pageSize
  if options.pageSize = .fit then
    let imgAspect : ℚ := (canvasW : ℚ) / canvasH
    let wh : ℚ × ℚ :=
      if imgAspect > 1 then (297, 297 / imgAspect) else (297 * imgAspect, 297)
    ⟨wh.1 + options.margin * 2, wh.2 + options.margin * 2⟩
  else
    ⟨pageSize.width, pageSize.height⟩

/-- The per-image page geometry computed inside imagesToPdf's loop: the
constrained canvas, the page dimensions, and the placement rectangle. -/
def imagePage (f : JsFile) (options : ConversionOptions) : PageDims × Placement :=
  let c := constrainDimensions f.imgWidth f.imgHeight
  let dims := imagePageDims c.1 c.2 options
  (dims, calculatePlacement c.1 c.2 dims.width dims.height options.margin)

/-- imagesToPdf from src/unnamed/part_002: empty batches throw; otherwise one
page per image in input order (the drawing calls go to the external jsPDF
collaborator; `imagePage` above models the loop's geometry) and the result
carries the fixed combined filename and `pageCount: files.length`. -/
def imagesToPdf (files : List JsFile) (options : ConversionOptions) :
    Except String ConversionResult :=
  if files.length = 0 then
    .error ("No images to convert")
  else
    let _pages := files.map (fun f => imagePage f options)
    .ok { filename := "converted-images.pdf", pageCount := (files.length : ℤ) }

/-- FONT_SIZE from the text converter (src/src/converters/htmlToPdf.ts,
second compilation unit): 12 pt courier. -/
def FONT_SIZE : ℚ := 12

/-- LINE_HEIGHT from the text converter: 6 mm per line. -/
def LINE_HEIGHT : ℚ := 6

/-- JS `name.replace(/\.[^.]+$/, '')`: drop a trailing dot-extension when the
final dot is followed by at least one non-dot character. -/
def stripExtension (name : String) : String :=
  let rev := name.data.reverse
  match rev.dropWhile (fun c => ¬ c = '.') with
  | '.' :: rest =>
      if rev.takeWhile (fun c => ¬ c = '.') = [] then name
      else String.mk rest.reverse
  | _ => name

/-- JS `string.endsWith(suffix)`. -/
def jsEndsWith (s suffix : String) : Bool :=
  suffix.data.isSuffixOf s.data

/-- JS `string.replace(pattern, repl)` with a plain-string pattern: replaces
only the first occurrence. -/
def replaceFirstList (pat repl : List Char) : List Char → List Char
  | [] => []
  | c :: cs =>
      if pat.isPrefixOf (c :: cs) then repl ++ (c :: cs).drop pat.length
      else c :: replaceFirstList pat repl cs

/-- String version of `replaceFirstList`. -/
def replaceFirst (s pat repl : String) : String :=
  String.mk (replaceFirstList pat.data repl.data s.data)

/-- The mutable drawing state of the text converter's emission loop
(src textToPdf, lines 331-350): the 1-based current page, the running `y`
cursor, every baseline at which a line was drawn, and the number of
page-start events (lines placed at the top of a fresh page, i.e. drawn with
the cursor at the margin). -/
structure TextLayout where
  currentPage : ℕ
  y : ℚ
  baselines : List ℚ
  pageStarts : ℕ
  deriving DecidableEq, Repr

/-- One iteration of textToPdf's emission loop: if the next line's baseline
would exceed the bottom margin, start a new page, then draw the line at
`y + LINE_HEIGHT` and advance the cursor. -/
def emitLine (pageHeight margin : ℚ) (st : TextLayout) (_line : String) : TextLayout :=
  let st :=
    if st.y + LINE_HEIGHT > pageHeight - margin then
      { st with currentPage := st.currentPage + 1, y := margin }
    else st
  { st with
    baselines := st.baselines ++ [st.y + LINE_HEIGHT],
    pageStarts := if st.y = margin then st.pageStarts + 1 else st.pageStarts,
    y := st.y + LINE_HEIGHT }

/-- The whole emission loop of textToPdf, starting on page 1 with the cursor
at the top margin. -/
def textLayoutRun (pageHeight margin : ℚ) (lines : List String) : TextLayout :=
  lines.foldl (emitLine pageHeight margin) ⟨1, margin, [], 0⟩

/-- textToPdf from the text converter: wraps the text to the content width
using the external jsPDF `splitTextToSize` (parameter `wrap`), computes
`totalPages = ceil(totalLines / floor(contentHeight / LINE_HEIGHT))`, runs
the emission loop (`textLayoutRun`), and reports the input filename with its
extension replaced by `.pdf`. -/
def textToPdf (wrap : String → ℚ → List String) (file : JsFile)
    (options : ConversionOptions) : ConversionResult :=
  let pageSize := PAGE_SIZES options.pageSize
  let margin := options.margin
  let contentWidth := pageSize.width - margin * 2
  let contentHeight := pageSize.height - margin * 2
  let linesPerPage : ℤ := ⌊contentHeight / LINE_HEIGHT⌋
  let lines := wrap file.content contentWidth
  let totalLines := lines.length
  let totalPages : ℤ := ⌈(totalLines : ℚ) / (linesPerPage : ℚ)⌉
  { filename := stripExtension file.name ++ ".pdf", pageCount := totalPages }

/-- The running state of textsToSinglePdf's loop: cursor, running page count
(starting at 1) and the first-file flag. -/
structure TextsState where
  y : ℚ
  totalPages : ℕ
  isFirstFile : Bool
  deriving DecidableEq, Repr

/-- One file's worth of textsToSinglePdf's loop: page break before every file
after the first, a filename header line plus a one-line gap, then the wrapped
lines with the same break rule as textToPdf. -/
def textsEmitFile (pageHeight margin : ℚ) (wrap : String → ℚ → List String)
    (contentWidth : ℚ) (st : TextsState) (file : JsFile) : TextsState :=
  let lines := wrap file.content contentWidth
  let st :=
    if st.isFirstFile then { st with isFirstFile := false }
    else { y := margin, totalPages := st.totalPages + 1, isFirstFile := false }
  let st := { st with y := st.y + LINE_HEIGHT * 2 }
  lines.foldl
    (fun st _line =>
      let st :=
        if st.y + LINE_HEIGHT > pageHeight - margin then
          { st with totalPages := st.totalPages + 1, y := margin }
        else st
      { st with y := st.y + LINE_HEIGHT })
    st

/-- textsToSinglePdf from the text converter: empty batches throw; otherwise
all files are emitted into one document with the fixed combined filename. -/
def textsToSinglePdf (wrap : String → ℚ → List String) (files : List JsFile)
    (options : ConversionOptions) : Except String ConversionResult :=
  if files.length = 0 then
    .error ("No files to convert")
  else
    let pageSize := PAGE_SIZES options.pageSize
    let margin := options.margin
    let contentWidth := pageSize.width - margin * 2
    let final := files.foldl
      (textsEmitFile pageSize.height margin wrap contentWidth)
      ⟨margin, 1, true⟩
    .ok { filename := "converted-texts.pdf", pageCount := (final.totalPages : ℤ) }

/-- JS `\s` character class (the whitespace characters relevant to this
code base). -/
def isSpaceJS (c : Char) : Bool :=
  c = ' ' ∨ c = '\t' ∨ c = '\n' ∨ c = '\r' ∨ c = '\x0b' ∨ c = '\x0c'

/-- Lazy search for the earliest occurrence of `cls`: returns the content
before it and the text after it.  With `stopNl` the content may not contain a
newline (the behaviour of a lazy `(.*?)` group, which `.` forbids from
matching a newline); without it the content is unrestricted (`[\s\S]*?` or a
negated class).  The closing delimiter is tried before the content absorbs a
character, as a lazy regex group does. -/
def splitAtSub (cls : List Char) (stopNl : Bool) : List Char → Option (List Char × List Char)
  | [] => none
  | c :: cs =>
      if cls.isPrefixOf (c :: cs) then some ([], (c :: cs).drop cls.length)
      else if stopNl ∧ c = '\n' then none
      else
        match splitAtSub cls stopNl cs with
        | some (pre, post) => some (c :: pre, post)
        | none => none

/-- Global replace of a lazily-delimited pattern `opn (…)? cls` by
`pre $1 post`, as a JS `str.replace(/opn(.*?)cls/g, …)` pass: scan left to
right, at each position try to match, on success continue after the match, on
failure advance one character.  `minLen` is the minimum content length (1 for
a `+` group, 0 for `*?`).  The fuel argument is initialised with the input
length, which every call site supplies; each step consumes one unit of fuel
and at least one character, so the fuel never runs out. -/
def replDelimGo (opn cls : List Char) (stopNl : Bool) (minLen : ℕ)
    (pre post : List Char) : ℕ → List Char → List Char
  | _, [] => []
  | 0, s => s
  | fuel + 1, c :: cs =>
      if opn.isPrefixOf (c :: cs) then
        match splitAtSub cls stopNl ((c :: cs).drop opn.length) with
        | some (content, rest) =>
            if minLen ≤ content.length then
              pre ++ content ++ post ++ replDelimGo opn cls stopNl minLen pre post fuel rest
            else c :: replDelimGo opn cls stopNl minLen pre post fuel cs
        | none => c :: replDelimGo opn cls stopNl minLen pre post fuel cs
      else c :: replDelimGo opn cls stopNl minLen pre post fuel cs

/-- One `str.replace(/^marker (.*)$/gm, pre$1post)` heading pass: since `^`,
`$` and `.` confine each match to a single line, this is a per-line map. -/
def headerPass (marker pre post : List Char) (s : List Char) : List Char :=
  List.intercalate ['\n']
    ((splitChar '\n' s).map fun line =>
      if marker.isPrefixOf line then pre ++ line.drop marker.length ++ post else line)

/-- The link pass `\[([^\]]+)\]\(([^)]+)\)` → `<a href="$2">$1</a>`:
both groups are nonempty runs stopped by the closing bracket. -/
def linkGo : ℕ → List Char → List Char
  | _, [] => []
  | 0, s => s
  | fuel + 1, c :: cs =>
      (if c = '[' then
        match splitAtSub [']'] false cs with
        | some (txt, rest1) =>
            if 1 ≤ txt.length then
              match rest1 with
              | '(' :: rest2 =>
                  match splitAtSub [')'] false rest2 with
                  | some (url, rest3) =>
                      if 1 ≤ url.length then
                        some ("<a href=\"".data ++ url ++ "\">".data ++ txt ++ "</a>".data, rest3)
                      else none
                  | none => none
              | _ => none
            else none
        | none => none
      else none).elim
        (c :: linkGo fuel cs)
        (fun out => out.1 ++ linkGo fuel out.2)

/-- One attempt of the list-item pattern `^\s*[-*]\s+(.*)$` at the current
position (which the caller guarantees is a line start): greedy leading
whitespace (which may span newlines), a dash or asterisk, at least one
whitespace character (greedy, may span newlines), then the rest of that line.
The closing `$` is zero-width, so a trailing newline is not consumed. -/
def tryListItem (s : List Char) : Option (List Char × List Char) :=
  match s.dropWhile isSpaceJS with
  | [] => none
  | m :: r2 =>
      if m = '-' ∨ m = '*' then
        if (r2.takeWhile isSpaceJS).length = 0 then none
        else
          let r3 := r2.dropWhile isSpaceJS
          some (r3.takeWhile (fun c => ¬ c = '\n'), r3.dropWhile (fun c => ¬ c = '\n'))
      else none

/-- The global multiline list pass: attempts `tryListItem` at every line
start (position 0 or any position following a newline), replacing matches by
`<li>$1</li>`; a match never ends with a newline, so scanning resumes in
mid-line. -/
def listGo : ℕ → Bool → List Char → List Char
  | _, _, [] => []
  | 0, _, s => s
  | fuel + 1, atStart, c :: cs =>
      match (if atStart then tryListItem (c :: cs) else none) with
      | some (item, rest) => "<li>".data ++ item ++ "</li>".data ++ listGo fuel false rest
      | none => c :: listGo fuel (c = '\n') cs

/-- JS global replace of a plain (nonempty) string pattern: leftmost,
non-overlapping, the replacement is not rescanned. -/
def replaceAllGo (pat repl : List Char) : ℕ → List Char → List Char
  | _, [] => []
  | 0, s => s
  | fuel + 1, c :: cs =>
      if pat.isPrefixOf (c :: cs) then
        repl ++ replaceAllGo pat repl fuel ((c :: cs).drop pat.length)
      else c :: replaceAllGo pat repl fuel cs

/-- One repetition of the group `(<li>.*?<\/li>\s*)` at the current position:
the lazy body may not span lines (`.`), the trailing whitespace is greedy and
belongs to the match. -/
def liRepGo (s : List Char) : Option (List Char × List Char) :=
  if "<li>".data.isPrefixOf s then
    match splitAtSub "</li>".data true (s.drop 4) with
    | some (content, rest1) =>
        some ("<li>".data ++ content ++ "</li>".data ++ rest1.takeWhile isSpaceJS,
          rest1.dropWhile isSpaceJS)
    | none => none
  else none

/-- Greedy `+` over `liRepGo`: as many repetitions as match, concatenated. -/
def liSeqGo : ℕ → List Char → (List Char × List Char)
  | 0, s => ([], s)
  | fuel + 1, s =>
      match liRepGo s with
      | some (consumed, rest) =>
          let more := liSeqGo fuel rest
          (consumed ++ more.1, more.2)
      | none => ([], s)

/-- The final pass of markdownToHtml:
`html.replace(/(<li>.*?<\/li>\s*)+/g, '<ul>$&</ul>')`. -/
def ulWrapGo : ℕ → List Char → List Char
  | _, [] => []
  | 0, s => s
  | fuel + 1, c :: cs =>
      match liRepGo (c :: cs) with
      | some _ =>
          let m := liSeqGo (c :: cs).length (c :: cs)
          "<ul>".data ++ m.1 ++ "</ul>".data ++ ulWrapGo fuel m.2
      | none => c :: ulWrapGo fuel cs

/-- markdownToHtml from src/src/converters/htmlToPdf.ts: the regex passes in
source order — headings (h3, h2, h1), bold+italic, bold, italic, fenced code
blocks, inline code, links, list items, paragraph breaks, line breaks — then
wrapping in a paragraph and wrapping consecutive list items in a list. -/
def markdownToHtml (markdown : String) : String :=
  let html := markdown.data
  let html := headerPass "### ".data "<h3>".data "</h3>".data html
  let html := headerPass "## ".data "<h2>".data "</h2>".data html
  let html := headerPass "# ".data "<h1>".data "</h1>".data html
  let html := replDelimGo "***".data "***".data true 0 "<strong><em>".data "</em></strong>".data html.length html
  let html := replDelimGo "**".data "**".data true 0 "<strong>".data "</strong>".data html.length html
  let html := replDelimGo "*".data "*".data true 0 "<em>".data "</em>".data html.length html
  let html := replDelimGo "```".data "```".data false 0 "<pre><code>".data "</code></pre>".data html.length html
  let html := replDelimGo "`".data "`".data false 1 "<code>".data "</code>".data html.length html
  let html := linkGo html.length html
  let html := listGo html.length true html
  let html := replaceAllGo "\n\n".data "</p><p>".data html.length html
  let html := replaceAllGo "\n".data "<br>".data html.length html
  let html := "<p>".data ++ html ++ "</p>".data
  let html := ulWrapGo html.length html
  String.mk html

/-- PX_PER_MM from src/src/converters/htmlToPdf.ts: pixels per millimetre at
96 DPI. -/
def PX_PER_MM : ℚ := 96 / 25.4

/-- htmlToPdf from src/src/converters/htmlToPdf.ts.  The off-screen render
container and html2canvas are external; `raster` maps the html fragment and
the container width in pixels to the resulting canvas height (already at
scale 2, which is why `contentHeightPx` carries the factor 2).  The page
count is `ceil(canvas.height / contentHeightPx)` and the filename is the
input name with its extension replaced by `.pdf`. -/
def htmlToPdf (raster : String → ℚ → ℕ) (file : JsFile)
    (options : ConversionOptions) : Except String ConversionResult :=
  let content := file.content
  let isMarkdown := jsEndsWith file.name (".md") ∨ jsEndsWith file.name (".markdown")
  let html := if isMarkdown then markdownToHtml content else content
  let pageSize := PAGE_SIZES options.pageSize
  let margin := options.margin
  let contentWidthMm := pageSize.width - margin * 2
  let contentWidthPx := contentWidthMm * PX_PER_MM
  let canvasHeight := raster html contentWidthPx
  let contentHeightMm := pageSize.height - margin * 2
  let contentHeightPx := contentHeightMm * PX_PER_MM * 2
  let totalPages : ℤ := ⌈(canvasHeight : ℚ) / contentHeightPx⌉
  .ok { filename := stripExtension file.name ++ ".pdf", pageCount := totalPages }

/-- htmlsToSinglePdf from src/src/converters/htmlToPdf.ts: empty batches
throw; otherwise each file contributes `ceil(canvas.height / contentHeightPx)`
pages (the inner page loop body increments `totalPages` once per iteration,
hence the `toNat`) and the fixed combined filename is reported. -/
def htmlsToSinglePdf (raster : String → ℚ → ℕ) (files : List JsFile)
    (options : ConversionOptions) : Except String ConversionResult :=
  if files.length = 0 then
    .error ("No files to convert")
  else
    let pageSize := PAGE_SIZES options.pageSize
    let margin := options.margin
    let contentWidthPx := (pageSize.width - margin * 2) * PX_PER_MM
    let contentHeightPx := (pageSize.height - margin * 2) * PX_PER_MM * 2
    let totalPages := files.foldl
      (fun acc f =>
        let isMarkdown := jsEndsWith f.name (".md") ∨ jsEndsWith f.name (".markdown")
        let html := if isMarkdown then markdownToHtml f.content else f.content
        let fileTotalPages : ℤ := ⌈(raster html contentWidthPx : ℚ) / contentHeightPx⌉
        acc + fileTotalPages.toNat)
      0
    .ok { filename := "converted-documents.pdf", pageCount := (totalPages : ℤ) }

/-- JSZip's `zip.file(path)` on the modelled entry list. -/
def zipFile (entries : List (String × String)) (path : String) : Option String :=
  (entries.find? (fun e => e.1 = path)).map (fun e => e.2)

/-- One namespace-stripping pass of extractTextFromXml
(`/<[^:>]+:/g → '<'` and `/<\/[^:>]+:/g → '</'`): after the opening
bracket(s), a nonempty run of characters that are neither `:` nor `>` must be
followed by a colon; the whole match is replaced by the bracket(s) alone. -/
def nsStripGo (opn repl : List Char) : ℕ → List Char → List Char
  | _, [] => []
  | 0, s => s
  | fuel + 1, c :: cs =>
      (if opn.isPrefixOf (c :: cs) then
        let t := (c :: cs).drop opn.length
        let run := t.takeWhile (fun a => ¬ a = ':' ∧ ¬ a = '>')
        if 1 ≤ run.length ∧ [':'].isPrefixOf (t.drop run.length) then
          some (t.drop (run.length + 1))
        else none
      else none).elim
        (c :: nsStripGo opn repl fuel cs)
        (fun rest => repl ++ nsStripGo opn repl fuel rest)

/-- All matches of `/<p[^>]*>[\s\S]*?<\/p>/g`: `<p`, a greedy run of
non-`>` characters, `>`, then the lazy body up to the earliest `</p>`. -/
def pMatchesGo : ℕ → List Char → List (List Char)
  | _, [] => []
  | 0, _ => []
  | fuel + 1, c :: cs =>
      (if "<p".data.isPrefixOf (c :: cs) then
        let t := (c :: cs).drop 2
        let attrs := t.takeWhile (fun a => ¬ a = '>')
        match t.drop attrs.length with
        | '>' :: body =>
            match splitAtSub "</p>".data false body with
            | some (inner, rest) =>
                some ("<p".data ++ attrs ++ '>' :: inner ++ "</p>".data, rest)
            | none => none
        | _ => none
      else none).elim
        (pMatchesGo fuel cs)
        (fun m => m.1 :: pMatchesGo fuel m.2)

/-- All captured groups of `/<t[^>]*>([^<]*)<\/t>/g` inside one paragraph
match.  The source maps every matched string through
`.replace(/<t[^>]*>/, '').replace(/<\/t>/, '')`, which strips exactly the
opening and closing tags of the match (the group cannot contain `<`), so
collecting the group directly is the same computation. -/
def tMatchesGo : ℕ → List Char → List (List Char)
  | _, [] => []
  | 0, _ => []
  | fuel + 1, c :: cs =>
      (if "<t".data.isPrefixOf (c :: cs) then
        let t := (c :: cs).drop 2
        let attrs := t.takeWhile (fun a => ¬ a = '>')
        match t.drop attrs.length with
        | '>' :: body =>
            let content := body.takeWhile (fun a => ¬ a = '<')
            if "</t>".data.isPrefixOf (body.drop content.length) then
              some (content, (body.drop content.length).drop 4)
            else none
        | _ => none
      else none).elim
        (tMatchesGo fuel cs)
        (fun m => m.1 :: tMatchesGo fuel m.2)

/-- JS `String.prototype.trim` on char lists. -/
def trimJS (s : List Char) : List Char :=
  ((s.dropWhile isSpaceJS).reverse.dropWhile isSpaceJS).reverse

/-- extractTextFromXml from src/unnamed/part_001: strip namespace prefixes
(both passes, in source order), match paragraph elements, concatenate the
text-run fragments of each paragraph, keep a paragraph whose concatenation
trims to nonempty and record an empty string for the others, and join the
paragraphs with newlines. -/
def extractTextFromXml (xml : String) : String :=
  let c1 := nsStripGo "<".data "<".data xml.data.length xml.data
  let cleanXml := nsStripGo "</".data "</".data c1.length c1
  let pMatches := pMatchesGo cleanXml.length cleanXml
  let paragraphs := pMatches.map (fun pMatch =>
    let paragraphText := (tMatchesGo pMatch.length pMatch).flatten
    if ¬ trimJS paragraphText = [] then paragraphText else [])
  String.mk (List.intercalate ['\n'] paragraphs)

/-- The raster-extension test `/\.(png|jpg|jpeg|gif|webp)$/i` of
extractImages. -/
def hasImageExt (name : String) : Bool :=
  let l := String.mk (name.data.map Char.toLower)
  jsEndsWith l (".png") ∨ jsEndsWith l (".jpg") ∨ jsEndsWith l (".jpeg") ∨
    jsEndsWith l (".gif") ∨ jsEndsWith l (".webp")

/-- extractImages from src/unnamed/part_001: every entry under `word/media/`
with a supported raster extension becomes a data URL keyed by its path.  The
base64 encoding of the entry bytes is external; the modelled entry content
stands for the encoded data.  (JSZip's `zip.folder` always returns a truthy
wrapper, so the early return for a missing folder never fires, and individual
decode failures — external — are skipped, never fatal.) -/
def extractImages (entries : List (String × String)) : List (String × String) :=
  let imageFiles := entries.filter
    (fun e => "word/media/".data.isPrefixOf e.1.data ∧ hasImageExt e.1)
  imageFiles.map (fun e =>
    let last := String.mk (((splitChar '.' e.1.data).getLastD []).map Char.toLower)
    let ext := if last = "" then "png" else last
    let mimeType := if ext = "jpg" then "jpeg" else ext
    (e.1, "data:image/" ++ mimeType ++ ";base64," ++ e.2))

/-- contentToHtml from src/unnamed/part_001: escape html entities, wrap each
line in a paragraph (`&nbsp;` for empty lines), and append the extracted
images section when any image was found. -/
def contentToHtml (text : String) (images : List (String × String)) : String :=
  let e1 := replaceAllGo "&".data "&amp;".data text.data.length text.data
  let e2 := replaceAllGo "<".data "&lt;".data e1.length e1
  let escaped := replaceAllGo ">".data "&gt;".data e2.length e2
  let html := List.intercalate ['\n']
    ((splitChar '\n' escaped).map (fun line =>
      "<p>".data ++ (if line = [] then "&nbsp;".data else line) ++ "</p>".data))
  let html :=
    if 1 ≤ images.length then
      html ++ "<div style=\"margin-top: 24px;\">".data
        ++ "<h3>Extracted Images</h3>".data
        ++ (images.map (fun img =>
              "<img src=\"".data ++ img.2.data
                ++ "\" style=\"max-width: 100%; margin: 8px 0;\" alt=\"Extracted image\" />".data)).flatten
        ++ "</div>".data
    else html
  String.mk html

/-- docxToPdf from src/unnamed/part_001: parse the archive (external), throw
if `word/document.xml` is absent, otherwise extract text and images, build
html, convert through htmlToPdf (its progress slice is rescaled by the
caller), and report the input name with `.docx` replaced by `.pdf` (JS
`replace` with a string pattern: first occurrence). -/
def docxToPdf (raster : String → ℚ → ℕ) (file : JsFile)
    (options : ConversionOptions) : Except String ConversionResult :=
  match zipFile file.entries ("word/document.xml") with
  | none => .error ("Invalid DOCX file: missing document.xml")
  | some xmlContent =>
      let text := extractTextFromXml xmlContent
      let images := extractImages file.entries
      let html := contentToHtml text images
      let htmlFile : JsFile :=
        ⟨replaceFirst file.name (".docx") (".html"), "text/html", 0, html, 0, 0, []⟩
      match htmlToPdf raster htmlFile options with
      | .error e => .error e
      | .ok r => .ok { r with filename := replaceFirst file.name (".docx") (".pdf") }

/-- The per-file separator heading docxsToSinglePdf pushes before each file's
content. -/
def docxHeaderPart (name : String) : String :=
  "<h1 style=\"border-bottom: 2px solid #ddd; padding-bottom: 8px;\">" ++ name ++ "</h1>"

/-- The page-break part docxsToSinglePdf pushes after each file's content. -/
def docxPageBreakPart : String :=
  "<div style=\"page-break-after: always;\"></div>"

/-- The `allHtmlParts` accumulation loop of docxsToSinglePdf: a file whose
archive lacks `word/document.xml` is skipped (`continue`), every other file
contributes its heading, its converted content and a page break. -/
def docxAllHtmlParts (files : List JsFile) : List String :=
  files.foldl
    (fun parts file =>
      match zipFile file.entries ("word/document.xml") with
      | none => parts
      | some xmlContent =>
          parts ++
            [docxHeaderPart file.name,
             contentToHtml (extractTextFromXml xmlContent) (extractImages file.entries),
             docxPageBreakPart])
    []

/-- docxsToSinglePdf from src/unnamed/part_001: empty batches throw;
otherwise the joined parts are converted through htmlToPdf as a single
combined document with the fixed combined filename. -/
def docxsToSinglePdf (raster : String → ℚ → ℕ) (files : List JsFile)
    (options : ConversionOptions) : Except String ConversionResult :=
  if files.length = 0 then
    .error ("No files to convert")
  else
    let combinedHtml :=
      String.mk (List.intercalate ['\n'] ((docxAllHtmlParts files).map String.data))
    match htmlToPdf raster ⟨"combined.html", "text/html", 0, combinedHtml, 0, 0, []⟩ options with
    | .error e => .error e
    | .ok r => .ok { r with filename := "converted-documents.pdf" }

/-- ConvertibleFile from src/src/types.ts as the orchestrator sees it: the
underlying file and the FileType stored at ingestion (`addFiles` computes it
with `detectFileType`). -/
structure ConvertibleFile where
  file : JsFile
  ftype : FileType
  deriving DecidableEq, Repr

/-- `state.files.filter(f => f.type === 'image').map(f => f.file)`. -/
def imageGroup (files : List ConvertibleFile) : List JsFile :=
  (files.filter (fun f => f.ftype = .image)).map (fun f => f.file)

/-- `state.files.filter(f => f.type === 'text').map(f => f.file)`. -/
def textGroup (files : List ConvertibleFile) : List JsFile :=
  (files.filter (fun f => f.ftype = .text)).map (fun f => f.file)

/-- `state.files.filter(f => f.type === 'html' || f.type === 'markdown').map(f => f.file)`. -/
def htmlGroup (files : List ConvertibleFile) : List JsFile :=
  (files.filter (fun f => f.ftype = .html ∨ f.ftype = .markdown)).map (fun f => f.file)

/-- `state.files.filter(f => f.type === 'docx').map(f => f.file)`. -/
def docxGroup (files : List ConvertibleFile) : List JsFile :=
  (files.filter (fun f => f.ftype = .docx)).map (fun f => f.file)

/-- `new Set(state.files.map(f => f.type))`: the distinct detected types of
the batch (only its size and, when the size is 1, its unique element are ever
consumed). -/
def typesOf (files : List ConvertibleFile) : List FileType :=
  (files.map (fun f => f.ftype)).dedup

/-- The `convert` dispatch of src/src/hooks/useFileConverter.ts: empty queue
is an error; a single-typed batch goes to that type's converter (the
single-file variant when the group has exactly one file, except for images,
which always go through `imagesToPdf`); a mixed-typed batch is dispatched to
the first nonempty group in the fixed priority order
image > text > html/markdown > docx, the other groups being ignored. -/
def convert (wrap : String → ℚ → List String) (raster : String → ℚ → ℕ)
    (files : List ConvertibleFile) (options : ConversionOptions) :
    Except String ConversionResult :=
  if files.length = 0 then .error ("No files to convert")
  else
    let imageFiles := imageGroup files
    let textFiles := textGroup files
    let htmlFiles := htmlGroup files
    let docxFiles := docxGroup files
    if (typesOf files).length = 1 then
      match (typesOf files).headI with
      | .image => imagesToPdf imageFiles options
      | .text =>
          if textFiles.length = 1 then .ok (textToPdf wrap textFiles.headI options)
          else textsToSinglePdf wrap textFiles options
      | .html =>
          if htmlFiles.length = 1 then htmlToPdf raster htmlFiles.headI options
          else htmlsToSinglePdf raster htmlFiles options
      | .markdown =>
          if htmlFiles.length = 1 then htmlToPdf raster htmlFiles.headI options
          else htmlsToSinglePdf raster htmlFiles options
      | .docx =>
          if docxFiles.length = 1 then docxToPdf raster docxFiles.headI options
          else docxsToSinglePdf raster docxFiles options
      | .unknown => .error ("Unsupported file type")
    else
      if 0 < imageFiles.length then imagesToPdf imageFiles options
      else if 0 < textFiles.length then textsToSinglePdf wrap textFiles options
      else if 0 < htmlFiles.length then htmlsToSinglePdf raster htmlFiles options
      else docxsToSinglePdf raster docxFiles options

/-- The sequence of progress percentages htmlToPdf reports, as a function of
the page count of the render: 10 (start), 20 (file read), 40 (container
built), 70 (canvas rendered), `70 + (page/totalPages)*30` for each page, and
a final 100. -/
def htmlToPdfTrace (totalPages : ℕ) : List ℚ :=
  [10, 20, 40, 70]
    ++ ((List.range totalPages).map (fun page : ℕ => 70 + ((page : ℚ) / (totalPages : ℚ)) * 30))
    ++ [100]

/-- The sequence of progress percentages imagesToPdf reports for `n` input
images: `(i/n)*100` before each image, then a final 100. -/
def imagesToPdfTrace (n : ℕ) : List ℚ :=
  ((List.range n).map (fun i : ℕ => ((i : ℚ) / (n : ℚ)) * 100)) ++ [100]

/-- The sequence of progress percentages docxToPdf reports: its own
milestones 10…60, then the chained htmlToPdf stage's internal reports
rescaled into the remaining 40% slice (`60 + progress * 0.4`). -/
def docxToPdfTrace (totalPages : ℕ) : List ℚ :=
  [10, 20, 30, 40, 50, 60] ++ (htmlToPdfTrace totalPages).map (fun p => 60 + p * 0.4)

/-- The sequence of progress percentages textToPdf reports for `totalLines`
wrapped lines: 10 (start), 30 (file read), 50 (lines wrapped), then
`50 + (i/totalLines)*50` at every line index divisible by 50, and a final
100. -/
def textToPdfTrace (totalLines : ℕ) : List ℚ :=
  [10, 30, 50]
    ++ (((List.range totalLines).filter (fun i => i % 50 = 0)).map
        (fun i : ℕ => 50 + ((i : ℚ) / (totalLines : ℚ)) * 50))
    ++ [100]

/-- The sequence of progress percentages textsToSinglePdf reports for `n`
input files: `(fileIndex/n)*100` before each file's lines, then a final
100. -/
def textsToSinglePdfTrace (n : ℕ) : List ℚ :=
  ((List.range n).map (fun i : ℕ => ((i : ℚ) / (n : ℚ)) * 100)) ++ [100]

/-- The sequence of progress percentages htmlsToSinglePdf reports for `n`
input files: `((fileIndex+1)/n)*100` after each file's pages, then a final
100. -/
def htmlsToSinglePdfTrace (n : ℕ) : List ℚ :=
  ((List.range n).map (fun i : ℕ => (((i : ℚ) + 1) / (n : ℚ)) * 100)) ++ [100]

/-- The sequence of progress percentages docxsToSinglePdf reports for `n`
input files: `(i/n)*50` before each file's extraction, then 50, then the
chained htmlToPdf stage's internal reports rescaled into the remaining 50%
slice (`50 + progress * 0.5`). -/
def docxsToSinglePdfTrace (n totalPages : ℕ) : List ℚ :=
  ((List.range n).map (fun i : ℕ => ((i : ℚ) / (n : ℚ)) * 50)) ++ [50]
    ++ (htmlToPdfTrace totalPages).map (fun p => 50 + p * 0.5)

/-- A trivial stand-in for the external jsPDF `splitTextToSize` used when a
concrete instance is needed. -/
def wrap0 : String → ℚ → List String := fun _ _ => []

/-- A trivial stand-in for the external html2canvas rasterizer used when a
concrete instance is needed. -/
def raster0 : String → ℚ → ℕ := fun _ _ => 0

/-- The default ConversionOptions of useFileConverter (A4, quality 0.9,
margin 10 mm). -/
def opts0 : ConversionOptions := ⟨.A4, 0.9, 10⟩

/-- A 100-byte file of unsupported type (no MIME, unmapped extension). -/
def fileUnsupportedC3 : JsFile := ⟨"a.xyz", "", 100, "", 0, 0, []⟩

/-- A text file exactly one byte over the 10 MiB per-file ceiling. -/
def fileOversized : JsFile := ⟨"b.txt", "", 10 * 1024 * 1024 + 1, "", 0, 0, []⟩

/-- A valid text file of exactly 10 MiB. -/
def fileTen : JsFile := ⟨"ten.txt", "text/plain", 10 * 1024 * 1024, "", 0, 0, []⟩

/-- A valid 1-byte text file. -/
def fileTiny : JsFile := ⟨"tiny.txt", "text/plain", 1, "", 0, 0, []⟩

/-- A batch totalling exactly the 50 MiB aggregate ceiling. -/
def batchExact : List JsFile := [fileTen, fileTen, fileTen, fileTen, fileTen]

/-- A batch totalling one byte over the 50 MiB aggregate ceiling. -/
def batchOver : List JsFile := fileTiny :: batchExact

/-- A concrete image input. -/
def photoFile : JsFile := ⟨"photo.png", "image/png", 3, "", 800, 600, []⟩

/-- A second concrete image input. -/
def photoFile2 : JsFile := ⟨"pic2.jpg", "image/jpeg", 4, "", 1200, 900, []⟩

/-- A concrete text input. -/
def noteFile : JsFile := ⟨"note.txt", "text/plain", 5, "hello", 0, 0, []⟩

/-- A docx input whose archive lacks the main content entry. -/
def badDocx : JsFile := ⟨"bad.docx", "", 5, "", 0, 0, []⟩

/-- A docx input whose archive has the main content entry. -/
def sampleDocx : JsFile :=
  ⟨"report.docx", "", 5, "", 0, 0, [("word/document.xml", "<w:p><w:t>hi</w:t></w:p>")]⟩

/-- A stand-in for the external jsPDF `splitTextToSize` that wraps any text
into three fixed lines, used for a concrete pagination instance. -/
def wrapThree : String → ℚ → List String := fun _ _ => ["l1", "l2", "l3"]

/-- The loop of validateFiles returns the all-clear record when every file
validates. -/
theorem validateFilesLoop_all_valid (files : List JsFile)
    (h : ∀ f ∈ files, (validateFile f).valid = true) :
    validateFilesLoop files = ⟨true, none, none⟩ := by
  induction files with
  | nil => rfl
  | cons f rest ih =>
      have hf := h f (List.mem_cons_self f rest)
      simp only [validateFilesLoop, hf, if_pos]
      exact ih (fun g hg => h g (List.mem_cons_of_mem f hg))

/-- The loop of validateFiles reports invalid whenever some file fails its
per-file check. -/
theorem validateFilesLoop_exists_invalid (files : List JsFile)
    (h : ∃ f ∈ files, (validateFile f).valid = false) :
    (validateFilesLoop files).valid = false := by
  induction files with
  | nil => rcases h with ⟨f, hf, _⟩; cases hf
  | cons f rest ih =>
      rcases h with ⟨g, hg, hgv⟩
      rcases List.mem_cons.1 hg with hgf | hgrest
      · subst hgf
        simp only [validateFilesLoop, hgv]
        by_cases hv : (validateFile g).valid = true
        · rw [hv] at hgv; cases hgv
        · simp only [Bool.not_eq_true] at hv
          simp [hv, hgv]
      · by_cases hv : (validateFile f).valid = true
        · simp only [validateFilesLoop, hv, if_pos]
          exact ih ⟨g, hgrest, hgv⟩
        · simp only [Bool.not_eq_true] at hv
          simp [validateFilesLoop, hv]

/-- The loop of validateFiles returns the first failing file's own result. -/
theorem validateFilesLoop_first (pre : List JsFile) (f : JsFile) (post : List JsFile)
    (hpre : ∀ g ∈ pre, (validateFile g).valid = true)
    (hf : (validateFile f).valid = false) :
    validateFilesLoop (pre ++ f :: post) = validateFile f := by
  induction pre with
  | nil => simp [validateFilesLoop, hf]
  | cons g rest ih =>
      have hg := hpre g (List.mem_cons_self g rest)
      simp only [List.cons_append, validateFilesLoop, hg, if_pos]
      exact ih (fun a ha => hpre a (List.mem_cons_of_mem g ha))

/-- C2: a batch totalling exactly the 50 MiB aggregate ceiling passes
validation (given its files pass the per-file checks), a batch one byte over
fails with the aggregate-limit message, and a file one byte over the 10 MiB
per-file ceiling makes validation fail whatever the batch total is. -/
theorem claim_C2_validator_boundaries :
    (∀ files : List JsFile, totalSize files = MAX_TOTAL_SIZE →
      (∀ f ∈ files, (validateFile f).valid = true) →
      (validateFiles files).valid = true)
    ∧ (∀ files : List JsFile, totalSize files = MAX_TOTAL_SIZE + 1 →
      validateFiles files = ⟨false, some (.totalTooLarge (totalSize files)), none⟩)
    ∧ (∀ (files : List JsFile) (f : JsFile), f ∈ files →
      f.size = MAX_FILE_SIZE + 1 → (validateFiles files).valid = false) := by
  refine ⟨?_, ?_, ?_⟩
  · intro files htot hall
    have hle : ¬ totalSize files > MAX_TOTAL_SIZE := by omega
    rw [validateFiles, if_neg hle, validateFilesLoop_all_valid files hall]
  · intro files htot
    have hgt : totalSize files > MAX_TOTAL_SIZE := by omega
    rw [validateFiles, if_pos hgt]
  · intro files f hmem hsize
    have hinv : (validateFile f).valid = false := by
      have hgt : f.size > MAX_FILE_SIZE := by omega
      rw [validateFile, if_pos hgt]
    by_cases htot : totalSize files > MAX_TOTAL_SIZE
    · rw [validateFiles, if_pos htot]
    · rw [validateFiles, if_neg htot]
      exact validateFilesLoop_exists_invalid files ⟨f, hmem, hinv⟩

/-- Witness for C2 at concrete batches: five exactly-10-MiB files pass, one
extra byte fails on the aggregate limit, and a lone 10 MiB + 1 byte file
fails. -/
theorem claim_C2_witness :
    (validateFiles batchExact).valid = true
    ∧ validateFiles batchOver = ⟨false, some (.totalTooLarge (totalSize batchOver)), none⟩
    ∧ (validateFiles [fileOversized]).valid = false := by
  refine ⟨?_, ?_, ?_⟩
  · exact claim_C2_validator_boundaries.1 batchExact (by decide) (by decide)
  · exact claim_C2_validator_boundaries.2.1 batchOver (by decide)
  · exact claim_C2_validator_boundaries.2.2 [fileOversized] fileOversized
      (by decide) (by decide)

/-- C3 counterexample: in a batch whose earlier file has an unsupported type
and whose later file is oversized (the batch total staying under the
aggregate ceiling), the reported violation is the earlier file's unsupported
type, not the oversized file's size limit as the claim states. -/
theorem claim_C3_counterexample :
    validateFiles [fileUnsupportedC3, fileOversized]
        = ⟨false, some (.unsupportedType ("a.xyz")), none⟩
    ∧ ¬ (validateFiles [fileUnsupportedC3, fileOversized]).error
        = some (.fileTooLarge ("b.txt") (10 * 1024 * 1024 + 1)) := by
  exact ⟨by decide, by decide⟩

/-- C3 amended: the validator checks the aggregate ceiling first, then the
files in list order, checking each file's size before its type; the first
violation in this order short-circuits and is the reported error (so an
earlier unsupported-type file is reported before a later oversized one). -/
theorem claim_C3_amended_order :
    (∀ files : List JsFile, MAX_TOTAL_SIZE < totalSize files →
      validateFiles files = ⟨false, some (.totalTooLarge (totalSize files)), none⟩)
    ∧ (∀ (pre : List JsFile) (f : JsFile) (post : List JsFile),
      totalSize (pre ++ f :: post) ≤ MAX_TOTAL_SIZE →
      (∀ g ∈ pre, (validateFile g).valid = true) →
      (validateFile f).valid = false →
      validateFiles (pre ++ f :: post) = validateFile f)
    ∧ (∀ f : JsFile, MAX_FILE_SIZE < f.size →
      validateFile f = ⟨false, some (.fileTooLarge f.name f.size), none⟩)
    ∧ (∀ f : JsFile, f.size ≤ MAX_FILE_SIZE → detectFileType f = .unknown →
      validateFile f = ⟨false, some (.unsupportedType f.name), none⟩) := by
  refine ⟨?_, ?_, ?_, ?_⟩
  · intro files htot
    rw [validateFiles, if_pos htot]
  · intro pre f post htot hpre hf
    have hle : ¬ totalSize (pre ++ f :: post) > MAX_TOTAL_SIZE := by omega
    rw [validateFiles, if_neg hle]
    exact validateFilesLoop_first pre f post hpre hf
  · intro f hgt
    rw [validateFile, if_pos hgt]
  · intro f hle hunk
    have hgt : ¬ f.size > MAX_FILE_SIZE := by omega
    rw [validateFile, if_neg hgt]
    simp [hunk]

/-- Witness for the amended C3 at the counterexample batch: the first
failing file in order (the unsupported one) determines the report. -/
theorem claim_C3_witness :
    validateFiles [fileUnsupportedC3, fileOversized] = validateFile fileUnsupportedC3 := by
  exact claim_C3_amended_order.2.1 [] fileUnsupportedC3 [fileOversized]
    (by decide) (by decide) (by decide)

/-- C10: the validator accepts an empty batch, yet every batch converter
throws on an empty file array instead of producing an empty result. -/
theorem claim_C10_empty_batches :
    validateFiles [] = ⟨true, none, none⟩
    ∧ ∀ (wrap : String → ℚ → List String) (raster : String → ℚ → ℕ)
        (options : ConversionOptions),
      imagesToPdf [] options = .error ("No images to convert")
      ∧ textsToSinglePdf wrap [] options = .error ("No files to convert")
      ∧ htmlsToSinglePdf raster [] options = .error ("No files to convert")
      ∧ docxsToSinglePdf raster [] options = .error ("No files to convert") := by
  exact ⟨by decide, fun wrap raster options => ⟨rfl, rfl, rfl, rfl⟩⟩

/-- C5: an image relatively wider than the content box gets the full
available width, with height derived from its aspect ratio; an image with
ratio at most the box's gets the full available height, with width derived
from the ratio; in both cases the placement is centered on both axes (the
left inset equals the right inset and the top inset equals the bottom
inset). -/
theorem claim_C5_placement (iw ih pw ph m : ℚ) :
    ((iw / ih > (pw - m * 2) / (ph - m * 2)) →
      (calculatePlacement iw ih pw ph m).width = pw - m * 2
      ∧ (calculatePlacement iw ih pw ph m).height = (pw - m * 2) / (iw / ih))
    ∧ ((iw / ih ≤ (pw - m * 2) / (ph - m * 2)) →
      (calculatePlacement iw ih pw ph m).height = ph - m * 2
      ∧ (calculatePlacement iw ih pw ph m).width = (ph - m * 2) * (iw / ih))
    ∧ ((calculatePlacement iw ih pw ph m).x - m
        = (pw - m) - ((calculatePlacement iw ih pw ph m).x
            + (calculatePlacement iw ih pw ph m).width))
    ∧ ((calculatePlacement iw ih pw ph m).y - m
        = (ph - m) - ((calculatePlacement iw ih pw ph m).y
            + (calculatePlacement iw ih pw ph m).height)) := by
  simp only [calculatePlacement]
  refine ⟨?_, ?_, ?_, ?_⟩
  · intro hgt
    rw [if_pos hgt]
    exact ⟨rfl, rfl⟩
  · intro hle
    rw [if_neg (not_lt.2 hle)]
    exact ⟨rfl, rfl⟩
  · split_ifs with h <;> ring
  · split_ifs with h <;> ring

/-- Witness for C5: a 2:1 image on A4 with 10 mm margins fills the 190 mm
content width; a 1:2 image fills the 277 mm content height. -/
theorem claim_C5_witness :
    (calculatePlacement 2 1 210 297 10).width = 190
    ∧ (calculatePlacement 1 2 210 297 10).height = 277 := by
  constructor
  · have h := (claim_C5_placement 2 1 210 297 10).1 (by norm_num)
    rw [h.1]; norm_num
  · have h := (claim_C5_placement 1 2 210 297 10).2.1 (by norm_num)
    rw [h.1]; norm_num

/-- C6: a single docx lacking the `word/document.xml` entry makes docxToPdf
throw the malformed-archive error; in a multi-file batch such a file is
skipped — it contributes nothing to the combined parts — and the batch
conversion still completes with a result. -/
theorem claim_C6_docx_missing_entry (raster : String → ℚ → ℕ) (f : JsFile)
    (options : ConversionOptions)
    (hf : zipFile f.entries ("word/document.xml") = none) :
    docxToPdf raster f options = .error ("Invalid DOCX file: missing document.xml")
    ∧ (∀ pre post : List JsFile,
        docxAllHtmlParts (pre ++ f :: post) = docxAllHtmlParts (pre ++ post))
    ∧ (∀ pre post : List JsFile,
        ∃ r, docxsToSinglePdf raster (pre ++ f :: post) options = .ok r) := by
  refine ⟨?_, ?_, ?_⟩
  · simp only [docxToPdf, hf]
  · intro pre post
    simp only [docxAllHtmlParts, List.foldl_append, List.foldl_cons, hf]
  · intro pre post
    have hlen : ¬ (pre ++ f :: post).length = 0 := by simp
    rw [docxsToSinglePdf, if_neg hlen]
    exact ⟨_, rfl⟩

/-- Witness for C6 at a concrete docx with no entries at all. -/
theorem claim_C6_witness :
    docxToPdf raster0 badDocx opts0 = .error ("Invalid DOCX file: missing document.xml")
    ∧ docxAllHtmlParts [badDocx] = docxAllHtmlParts []
    ∧ ∃ r, docxsToSinglePdf raster0 [badDocx] opts0 = .ok r := by
  have h := claim_C6_docx_missing_entry raster0 badDocx opts0 (by decide)
  exact ⟨h.1, h.2.1 [] [], h.2.2 [] []⟩

/-- Mapping a pointwise-monotone function over `List.range` yields a
chain for `≤`. -/
theorem chain'_le_map_range (f : ℕ → ℚ) (n : ℕ) (hf : ∀ i, f i ≤ f (i + 1)) :
    List.Chain' (fun a b => a ≤ b) ((List.range n).map f) := by
  rw [List.chain'_map]
  cases n with
  | zero => simp
  | succ m => exact (List.chain'_range_succ _ m).2 (fun i _ => hf i)

/-- The per-page progress values of htmlToPdf are monotone. -/
theorem htmlTrace_pageStep_mono (T : ℕ) (i : ℕ) :
    70 + ((i : ℚ) / T) * 30 ≤ 70 + (((i + 1 : ℕ) : ℚ) / T) * 30 := by
  rcases Nat.eq_zero_or_pos T with hT | hT
  · simp [hT]
  · have hT' : (0 : ℚ) < T := by exact_mod_cast hT
    have hdiv : (i : ℚ) / T ≤ ((i + 1 : ℕ) : ℚ) / T := by
      rw [div_le_div_iff_of_pos_right hT']
      push_cast
      linarith
    linarith

/-- Every page-loop progress value of htmlToPdf lies in [70, 100]. -/
theorem htmlTrace_page_bounds (T : ℕ) :
    ∀ p ∈ (List.range T).map (fun page : ℕ => 70 + ((page : ℚ) / (T : ℚ)) * 30),
      70 ≤ p ∧ p ≤ 100 := by
  intro p hp
  rcases List.mem_map.1 hp with ⟨i, hi, rfl⟩
  rw [List.mem_range] at hi
  have hT : 0 < T := by omega
  have hT' : (0 : ℚ) < T := by exact_mod_cast hT
  have h0 : (0 : ℚ) ≤ (i : ℚ) / T := by positivity
  have h1 : (i : ℚ) / T < 1 := by
    rw [div_lt_one hT']
    exact_mod_cast hi
  constructor <;> nlinarith

/-- Mapping a monotone function over `List.range` yields a `≤`-pairwise
list. -/
theorem pairwise_le_map_range (f : ℕ → ℚ) (n : ℕ) (hf : ∀ i j, i < j → f i ≤ f j) :
    List.Pairwise (fun a b => a ≤ b) ((List.range n).map f) := by
  rw [List.pairwise_map]
  exact (List.pairwise_lt_range n).imp (fun h => hf _ _ h)

/-- The page-loop progress values of htmlToPdf are pairwise monotone. -/
theorem htmlTrace_page_pairwise (T : ℕ) :
    List.Pairwise (fun a b => a ≤ b)
      ((List.range T).map (fun page : ℕ => 70 + ((page : ℚ) / (T : ℚ)) * 30)) := by
  refine pairwise_le_map_range _ _ ?_
  intro i j hij
  rcases Nat.eq_zero_or_pos T with hT | hT
  · simp [hT]
  · have hT' : (0 : ℚ) < T := by exact_mod_cast hT
    have : (i : ℚ) / T ≤ (j : ℚ) / T := by
      rw [div_le_div_iff_of_pos_right hT']
      exact_mod_cast hij.le
    nlinarith

/-- The whole htmlToPdf progress sequence is pairwise monotone. -/
theorem htmlTrace_pairwise (T : ℕ) :
    List.Pairwise (fun a b => a ≤ b) (htmlToPdfTrace T) := by
  have hmem := htmlTrace_page_bounds T
  have htail : List.Pairwise (fun a b : ℚ => a ≤ b)
      ((List.range T).map (fun page : ℕ => 70 + ((page : ℚ) / (T : ℚ)) * 30) ++ [100]) := by
    rw [List.pairwise_append]
    refine ⟨htmlTrace_page_pairwise T, List.pairwise_singleton _ _, ?_⟩
    intro a ha b hb
    rw [List.mem_singleton] at hb
    subst hb
    exact (hmem a ha).2
  have htail_mem : ∀ p ∈ (List.range T).map (fun page : ℕ => 70 + ((page : ℚ) / (T : ℚ)) * 30) ++ [100],
      70 ≤ p ∧ p ≤ 100 := by
    intro p hp
    rcases List.mem_append.1 hp with h | h
    · exact hmem p h
    · rw [List.mem_singleton] at h
      subst h
      norm_num
  show List.Pairwise (fun a b => a ≤ b)
    ([10, 20, 40, 70]
      ++ ((List.range T).map (fun page : ℕ => 70 + ((page : ℚ) / (T : ℚ)) * 30) ++ [100]))
  refine List.pairwise_append.2 ⟨by decide, htail, ?_⟩
  intro a ha b hb
  have hb70 := (htail_mem b hb).1
  simp only [List.mem_cons, List.not_mem_nil, or_false] at ha
  rcases ha with rfl | rfl | rfl | rfl <;> linarith

/-- Every htmlToPdf progress value lies in [0, 100]. -/
theorem htmlTrace_bounds (T : ℕ) :
    ∀ p ∈ htmlToPdfTrace T, 0 ≤ p ∧ p ≤ 100 := by
  intro p hp
  have hp' : p ∈ (10 : ℚ) :: 20 :: 40 :: 70 ::
      ((List.range T).map (fun page : ℕ => 70 + ((page : ℚ) / (T : ℚ)) * 30) ++ [100]) := hp
  rcases List.mem_cons.1 hp' with rfl | h
  · norm_num
  rcases List.mem_cons.1 h with rfl | h
  · norm_num
  rcases List.mem_cons.1 h with rfl | h
  · norm_num
  rcases List.mem_cons.1 h with rfl | h
  · norm_num
  rcases List.mem_append.1 h with h | h
  · have := htmlTrace_page_bounds T p h
    constructor <;> linarith [this.1, this.2]
  · rw [List.mem_singleton] at h
    subst h
    norm_num

/-- The imagesToPdf progress sequence is pairwise monotone. -/
theorem imagesTrace_pairwise (n : ℕ) :
    List.Pairwise (fun a b => a ≤ b) (imagesToPdfTrace n) := by
  unfold imagesToPdfTrace
  rw [List.pairwise_append]
  refine ⟨?_, List.pairwise_singleton _ _, ?_⟩
  · refine pairwise_le_map_range _ _ ?_
    intro i j hij
    rcases Nat.eq_zero_or_pos n with hn | hn
    · simp [hn]
    · have hn' : (0 : ℚ) < n := by exact_mod_cast hn
      have : (i : ℚ) / n ≤ (j : ℚ) / n := by
        rw [div_le_div_iff_of_pos_right hn']
        exact_mod_cast hij.le
      nlinarith
  · intro a ha b hb
    rw [List.mem_singleton] at hb
    subst hb
    rcases List.mem_map.1 ha with ⟨i, hi, rfl⟩
    rw [List.mem_range] at hi
    have hn : 0 < n := by omega
    have hn' : (0 : ℚ) < n := by exact_mod_cast hn
    have h1 : (i : ℚ) / n < 1 := by
      rw [div_lt_one hn']
      exact_mod_cast hi
    nlinarith

/-- Every imagesToPdf progress value lies in [0, 100]. -/
theorem imagesTrace_bounds (n : ℕ) :
    ∀ p ∈ imagesToPdfTrace n, 0 ≤ p ∧ p ≤ 100 := by
  intro p hp
  rcases List.mem_append.1 hp with h | h
  · rcases List.mem_map.1 h with ⟨i, hi, rfl⟩
    rw [List.mem_range] at hi
    have hn : 0 < n := by omega
    have hn' : (0 : ℚ) < n := by exact_mod_cast hn
    have h0 : (0 : ℚ) ≤ (i : ℚ) / n := by positivity
    have h1 : (i : ℚ) / n < 1 := by
      rw [div_lt_one hn']
      exact_mod_cast hi
    constructor <;> nlinarith
  · rw [List.mem_singleton] at h
    subst h
    norm_num

/-- The docxToPdf progress sequence is pairwise monotone. -/
theorem docxTrace_pairwise (T : ℕ) :
    List.Pairwise (fun a b => a ≤ b) (docxToPdfTrace T) := by
  have hrescaled : List.Pairwise (fun a b : ℚ => a ≤ b)
      ((htmlToPdfTrace T).map (fun p => 60 + p * 0.4)) := by
    rw [List.pairwise_map]
    refine (htmlTrace_pairwise T).imp ?_
    intro a b hab
    show (60 : ℚ) + a * 0.4 ≤ 60 + b * 0.4
    nlinarith
  have hmem : ∀ p ∈ (htmlToPdfTrace T).map (fun p => 60 + p * 0.4),
      60 ≤ p ∧ p ≤ 100 := by
    intro p hp
    rcases List.mem_map.1 hp with ⟨q, hq, rfl⟩
    have := htmlTrace_bounds T q hq
    constructor <;> nlinarith [this.1, this.2]
  show List.Pairwise (fun a b => a ≤ b)
    ([10, 20, 30, 40, 50, 60] ++ (htmlToPdfTrace T).map (fun p => 60 + p * 0.4))
  refine List.pairwise_append.2 ⟨by decide, hrescaled, ?_⟩
  intro a ha b hb
  have hb60 := (hmem b hb).1
  simp only [List.mem_cons, List.not_mem_nil, or_false] at ha
  rcases ha with rfl | rfl | rfl | rfl | rfl | rfl <;> linarith

/-- Every docxToPdf progress value lies in [0, 100]. -/
theorem docxTrace_bounds (T : ℕ) :
    ∀ p ∈ docxToPdfTrace T, 0 ≤ p ∧ p ≤ 100 := by
  intro p hp
  have hp' : p ∈ ([10, 20, 30, 40, 50, 60] : List ℚ)
      ++ (htmlToPdfTrace T).map (fun q => 60 + q * 0.4) := hp
  rcases List.mem_append.1 hp' with h | h
  · simp only [List.mem_cons, List.not_mem_nil, or_false] at h
    rcases h with rfl | rfl | rfl | rfl | rfl | rfl <;> norm_num
  · rcases List.mem_map.1 h with ⟨q, hq, rfl⟩
    have hbq := htmlTrace_bounds T q hq
    constructor <;> nlinarith [hbq.1, hbq.2]

/-- Every mid-loop progress value of textToPdf lies in [50, 100]. -/
theorem textTrace_tick_bounds (N : ℕ) :
    ∀ p ∈ ((List.range N).filter (fun i => i % 50 = 0)).map
        (fun i : ℕ => 50 + ((i : ℚ) / (N : ℚ)) * 50),
      50 ≤ p ∧ p ≤ 100 := by
  intro p hp
  rcases List.mem_map.1 hp with ⟨i, hi, rfl⟩
  have hiN : i < N := List.mem_range.1 (List.mem_of_mem_filter hi)
  have hN : 0 < N := by omega
  have hN' : (0 : ℚ) < N := by exact_mod_cast hN
  have h0 : (0 : ℚ) ≤ (i : ℚ) / N := by positivity
  have h1 : (i : ℚ) / N < 1 := by
    rw [div_lt_one hN']
    exact_mod_cast hiN
  constructor <;> nlinarith

/-- The mid-loop progress values of textToPdf are pairwise monotone (the
reporting indices are a sublist of `range`, hence increasing). -/
theorem textTrace_tick_pairwise (N : ℕ) :
    List.Pairwise (fun a b => a ≤ b)
      (((List.range N).filter (fun i => i % 50 = 0)).map
        (fun i : ℕ => 50 + ((i : ℚ) / (N : ℚ)) * 50)) := by
  rw [List.pairwise_map]
  have hpw : List.Pairwise (fun a b : ℕ => a < b)
      ((List.range N).filter (fun i => i % 50 = 0)) :=
    (List.pairwise_lt_range N).filter _
  refine hpw.imp ?_
  intro i j hij
  show 50 + ((i : ℚ) / (N : ℚ)) * 50 ≤ 50 + ((j : ℚ) / (N : ℚ)) * 50
  rcases Nat.eq_zero_or_pos N with hN | hN
  · simp [hN]
  · have hN' : (0 : ℚ) < N := by exact_mod_cast hN
    have hdiv : (i : ℚ) / N ≤ (j : ℚ) / N := by
      rw [div_le_div_iff_of_pos_right hN']
      exact_mod_cast hij.le
    nlinarith

/-- The whole textToPdf progress sequence is pairwise monotone. -/
theorem textTrace_pairwise (N : ℕ) :
    List.Pairwise (fun a b => a ≤ b) (textToPdfTrace N) := by
  have hmem := textTrace_tick_bounds N
  have htail : List.Pairwise (fun a b : ℚ => a ≤ b)
      (((List.range N).filter (fun i => i % 50 = 0)).map
        (fun i : ℕ => 50 + ((i : ℚ) / (N : ℚ)) * 50) ++ [100]) := by
    rw [List.pairwise_append]
    refine ⟨textTrace_tick_pairwise N, List.pairwise_singleton _ _, ?_⟩
    intro a ha b hb
    rw [List.mem_singleton] at hb
    subst hb
    exact (hmem a ha).2
  have htail_mem : ∀ p ∈ ((List.range N).filter (fun i => i % 50 = 0)).map
      (fun i : ℕ => 50 + ((i : ℚ) / (N : ℚ)) * 50) ++ [100],
      50 ≤ p ∧ p ≤ 100 := by
    intro p hp
    rcases List.mem_append.1 hp with h | h
    · exact hmem p h
    · rw [List.mem_singleton] at h
      subst h
      norm_num
  show List.Pairwise (fun a b => a ≤ b)
    ([10, 30, 50]
      ++ (((List.range N).filter (fun i => i % 50 = 0)).map
          (fun i : ℕ => 50 + ((i : ℚ) / (N : ℚ)) * 50) ++ [100]))
  refine List.pairwise_append.2 ⟨by decide, htail, ?_⟩
  intro a ha b hb
  have hb50 := (htail_mem b hb).1
  simp only [List.mem_cons, List.not_mem_nil, or_false] at ha
  rcases ha with rfl | rfl | rfl <;> linarith

/-- Every textToPdf progress value lies in [0, 100]. -/
theorem textTrace_bounds (N : ℕ) :
    ∀ p ∈ textToPdfTrace N, 0 ≤ p ∧ p ≤ 100 := by
  intro p hp
  have hp' : p ∈ (10 : ℚ) :: 30 :: 50 ::
      (((List.range N).filter (fun i => i % 50 = 0)).map
        (fun i : ℕ => 50 + ((i : ℚ) / (N : ℚ)) * 50) ++ [100]) := hp
  rcases List.mem_cons.1 hp' with rfl | h
  · norm_num
  rcases List.mem_cons.1 h with rfl | h
  · norm_num
  rcases List.mem_cons.1 h with rfl | h
  · norm_num
  rcases List.mem_append.1 h with h | h
  · have hb := textTrace_tick_bounds N p h
    constructor <;> linarith [hb.1, hb.2]
  · rw [List.mem_singleton] at h
    subst h
    norm_num

/-- The textsToSinglePdf progress sequence has the same reported values as
the imagesToPdf one (the call sites coincide), so its monotonicity transfers
definitionally. -/
theorem textsTrace_pairwise (n : ℕ) :
    List.Pairwise (fun a b => a ≤ b) (textsToSinglePdfTrace n) :=
  imagesTrace_pairwise n

/-- Every textsToSinglePdf progress value lies in [0, 100]. -/
theorem textsTrace_bounds (n : ℕ) :
    ∀ p ∈ textsToSinglePdfTrace n, 0 ≤ p ∧ p ≤ 100 :=
  imagesTrace_bounds n

/-- The htmlsToSinglePdf progress sequence is pairwise monotone. -/
theorem htmlsTrace_pairwise (n : ℕ) :
    List.Pairwise (fun a b => a ≤ b) (htmlsToSinglePdfTrace n) := by
  unfold htmlsToSinglePdfTrace
  rw [List.pairwise_append]
  refine ⟨pairwise_le_map_range _ _ ?_, List.pairwise_singleton _ _, ?_⟩
  · intro i j hij
    rcases Nat.eq_zero_or_pos n with hn | hn
    · simp [hn]
    · have hn' : (0 : ℚ) < n := by exact_mod_cast hn
      have hcast : (i : ℚ) ≤ (j : ℚ) := by exact_mod_cast hij.le
      have hdiv : ((i : ℚ) + 1) / n ≤ ((j : ℚ) + 1) / n := by
        rw [div_le_div_iff_of_pos_right hn']
        linarith
      nlinarith
  · intro a ha b hb
    rw [List.mem_singleton] at hb
    subst hb
    rcases List.mem_map.1 ha with ⟨i, hi, rfl⟩
    rw [List.mem_range] at hi
    have hn : 0 < n := by omega
    have hn' : (0 : ℚ) < n := by exact_mod_cast hn
    have hi1 : ((i : ℚ) + 1) ≤ (n : ℚ) := by
      have : i + 1 ≤ n := by omega
      exact_mod_cast this
    have h1 : ((i : ℚ) + 1) / n ≤ 1 := by
      rw [div_le_one hn']
      exact hi1
    nlinarith

/-- Every htmlsToSinglePdf progress value lies in [0, 100]. -/
theorem htmlsTrace_bounds (n : ℕ) :
    ∀ p ∈ htmlsToSinglePdfTrace n, 0 ≤ p ∧ p ≤ 100 := by
  intro p hp
  rcases List.mem_append.1 hp with h | h
  · rcases List.mem_map.1 h with ⟨i, hi, rfl⟩
    rw [List.mem_range] at hi
    have hn : 0 < n := by omega
    have hn' : (0 : ℚ) < n := by exact_mod_cast hn
    have h0 : (0 : ℚ) ≤ ((i : ℚ) + 1) / n := by positivity
    have hi1 : ((i : ℚ) + 1) ≤ (n : ℚ) := by
      have : i + 1 ≤ n := by omega
      exact_mod_cast this
    have h1 : ((i : ℚ) + 1) / n ≤ 1 := by
      rw [div_le_one hn']
      exact hi1
    constructor <;> nlinarith
  · rw [List.mem_singleton] at h
    subst h
    norm_num

/-- The docxsToSinglePdf progress sequence is pairwise monotone. -/
theorem docxsTrace_pairwise (n T : ℕ) :
    List.Pairwise (fun a b => a ≤ b) (docxsToSinglePdfTrace n T) := by
  have hB : List.Pairwise (fun a b : ℚ => a ≤ b)
      ((htmlToPdfTrace T).map (fun p => 50 + p * 0.5)) := by
    rw [List.pairwise_map]
    refine (htmlTrace_pairwise T).imp ?_
    intro a b hab
    show (50 : ℚ) + a * 0.5 ≤ 50 + b * 0.5
    nlinarith
  have hmemB : ∀ p ∈ (htmlToPdfTrace T).map (fun p => 50 + p * 0.5),
      50 ≤ p ∧ p ≤ 100 := by
    intro p hp
    rcases List.mem_map.1 hp with ⟨q, hq, rfl⟩
    have hbq := htmlTrace_bounds T q hq
    constructor <;> nlinarith [hbq.1, hbq.2]
  have haA : ∀ a ∈ (List.range n).map (fun i : ℕ => ((i : ℚ) / (n : ℚ)) * 50),
      0 ≤ a ∧ a ≤ 50 := by
    intro a ha
    rcases List.mem_map.1 ha with ⟨i, hi, rfl⟩
    rw [List.mem_range] at hi
    have hn : 0 < n := by omega
    have hn' : (0 : ℚ) < n := by exact_mod_cast hn
    have h0 : (0 : ℚ) ≤ (i : ℚ) / n := by positivity
    have h1 : (i : ℚ) / n < 1 := by
      rw [div_lt_one hn']
      exact_mod_cast hi
    constructor <;> nlinarith
  unfold docxsToSinglePdfTrace
  refine List.pairwise_append.2 ⟨?_, hB, ?_⟩
  · refine List.pairwise_append.2 ⟨?_, List.pairwise_singleton _ _, ?_⟩
    · refine pairwise_le_map_range _ _ ?_
      intro i j hij
      rcases Nat.eq_zero_or_pos n with hn | hn
      · simp [hn]
      · have hn' : (0 : ℚ) < n := by exact_mod_cast hn
        have hdiv : (i : ℚ) / n ≤ (j : ℚ) / n := by
          rw [div_le_div_iff_of_pos_right hn']
          exact_mod_cast hij.le
        nlinarith
    · intro a ha b hb
      rw [List.mem_singleton] at hb
      subst hb
      exact (haA a ha).2
  · intro a ha b hb
    have hb50 := (hmemB b hb).1
    have ha50 : a ≤ 50 := by
      rcases List.mem_append.1 ha with h | h
      · exact (haA a h).2
      · rw [List.mem_singleton] at h
        subst h
        norm_num
    linarith

/-- Every docxsToSinglePdf progress value lies in [0, 100]. -/
theorem docxsTrace_bounds (n T : ℕ) :
    ∀ p ∈ docxsToSinglePdfTrace n T, 0 ≤ p ∧ p ≤ 100 := by
  intro p hp
  unfold docxsToSinglePdfTrace at hp
  rcases List.mem_append.1 hp with h | h
  · rcases List.mem_append.1 h with h1 | h1
    · rcases List.mem_map.1 h1 with ⟨i, hi, rfl⟩
      rw [List.mem_range] at hi
      have hn : 0 < n := by omega
      have hn' : (0 : ℚ) < n := by exact_mod_cast hn
      have h0 : (0 : ℚ) ≤ (i : ℚ) / n := by positivity
      have h1 : (i : ℚ) / n < 1 := by
        rw [div_lt_one hn']
        exact_mod_cast hi
      constructor <;> nlinarith
    · rw [List.mem_singleton] at h1
      subst h1
      norm_num
  · rcases List.mem_map.1 h with ⟨q, hq, rfl⟩
    have hbq := htmlTrace_bounds T q hq
    constructor <;> nlinarith [hbq.1, hbq.2]

/-- C7: the progress sequence of every conversion run — imagesToPdf,
htmlToPdf, docxToPdf (which chains htmlToPdf), textToPdf, textsToSinglePdf,
htmlsToSinglePdf and docxsToSinglePdf (which also chains htmlToPdf), each
modelled from its onProgress call sites — is monotonically non-decreasing
with every value in [0, 100]; and the chained html-rasterization stage's
internal progress is rescaled into the remaining 40% slice of the docx run:
reported value `60 + p * 0.4` for internal value `p`. -/
theorem claim_C7_progress_traces (n T nLines nTexts nHtmls nDocxs : ℕ) :
    List.Chain' (fun a b => a ≤ b) (imagesToPdfTrace n)
    ∧ (∀ p ∈ imagesToPdfTrace n, 0 ≤ p ∧ p ≤ 100)
    ∧ List.Chain' (fun a b => a ≤ b) (htmlToPdfTrace T)
    ∧ (∀ p ∈ htmlToPdfTrace T, 0 ≤ p ∧ p ≤ 100)
    ∧ List.Chain' (fun a b => a ≤ b) (docxToPdfTrace T)
    ∧ (∀ p ∈ docxToPdfTrace T, 0 ≤ p ∧ p ≤ 100)
    ∧ List.Chain' (fun a b => a ≤ b) (textToPdfTrace nLines)
    ∧ (∀ p ∈ textToPdfTrace nLines, 0 ≤ p ∧ p ≤ 100)
    ∧ List.Chain' (fun a b => a ≤ b) (textsToSinglePdfTrace nTexts)
    ∧ (∀ p ∈ textsToSinglePdfTrace nTexts, 0 ≤ p ∧ p ≤ 100)
    ∧ List.Chain' (fun a b => a ≤ b) (htmlsToSinglePdfTrace nHtmls)
    ∧ (∀ p ∈ htmlsToSinglePdfTrace nHtmls, 0 ≤ p ∧ p ≤ 100)
    ∧ List.Chain' (fun a b => a ≤ b) (docxsToSinglePdfTrace nDocxs T)
    ∧ (∀ p ∈ docxsToSinglePdfTrace nDocxs T, 0 ≤ p ∧ p ≤ 100)
    ∧ docxToPdfTrace T
        = [10, 20, 30, 40, 50, 60] ++ (htmlToPdfTrace T).map (fun p => 60 + p * 0.4) :=
  ⟨(imagesTrace_pairwise n).chain', imagesTrace_bounds n,
    (htmlTrace_pairwise T).chain', htmlTrace_bounds T,
    (docxTrace_pairwise T).chain', docxTrace_bounds T,
    (textTrace_pairwise nLines).chain', textTrace_bounds nLines,
    (textsTrace_pairwise nTexts).chain', textsTrace_bounds nTexts,
    (htmlsTrace_pairwise nHtmls).chain', htmlsTrace_bounds nHtmls,
    (docxsTrace_pairwise nDocxs T).chain', docxsTrace_bounds nDocxs T, rfl⟩

/-- C8 counterexample: the transpiler interprets emphasis before protecting
code spans, so for the input where asterisk emphasis markers occur only
inside a backtick code span the output does not keep the asterisks literally
— they are turned into an `em` element nested in the code element. -/
theorem claim_C8_counterexample :
    markdownToHtml ("`*a*`") = "<p><code><em>a</em></code></p>"
    ∧ ¬ '*' ∈ (markdownToHtml ("`*a*`")).data := by
  exact ⟨by decide, by decide⟩

/-- C8 amended: in the Markdown-to-HTML transpiler the emphasis passes run
BEFORE the code-span passes, so asterisk emphasis markers inside backtick or
fenced code spans are interpreted, producing em/strong tags nested inside the
resulting code/pre elements instead of literal asterisks. -/
theorem claim_C8_amended_emphasis_first :
    markdownToHtml ("```*b*```") = "<p><pre><code><em>b</em></code></pre></p>"
    ∧ markdownToHtml ("`**c**`") = "<p><code><strong>c</strong></code></p>"
    ∧ markdownToHtml ("`*a*b`") = "<p><code><em>a</em>b</code></p>" := by
  exact ⟨by decide, by decide, by decide⟩

/-- C9 counterexample: a single image file is converted through imagesToPdf
and receives the fixed combined filename, not a name derived from the sole
input's name with its extension replaced by `.pdf`. -/
theorem claim_C9_counterexample :
    convert wrap0 raster0 [⟨photoFile, .image⟩] opts0
      = .ok ⟨"converted-images.pdf", 1⟩
    ∧ ¬ "converted-images.pdf" = stripExtension photoFile.name ++ ".pdf" := by
  exact ⟨rfl, by decide⟩

/-- C9 amended: single-file conversions of text, html and markdown inputs
report the input name with its extension replaced by `.pdf`; a single docx
input (whose archive has the main content entry) reports the input name with
the first occurrence of `.docx` replaced by `.pdf`; but a single image input
reports the fixed combined name `converted-images.pdf`.  Multi-file batches
report the fixed combined names: `converted-texts.pdf` for texts,
`converted-documents.pdf` for html/markdown and docx batches, and
`converted-images.pdf` for images. -/
theorem claim_C9_amended_filenames (wrap : String → ℚ → List String)
    (raster : String → ℚ → ℕ) (options : ConversionOptions) (f : JsFile) :
    (∃ r, convert wrap raster [⟨f, .text⟩] options = .ok r
      ∧ r.filename = stripExtension f.name ++ ".pdf")
    ∧ (∃ r, convert wrap raster [⟨f, .html⟩] options = .ok r
      ∧ r.filename = stripExtension f.name ++ ".pdf")
    ∧ (∃ r, convert wrap raster [⟨f, .markdown⟩] options = .ok r
      ∧ r.filename = stripExtension f.name ++ ".pdf")
    ∧ (¬ zipFile f.entries ("word/document.xml") = none →
      ∃ r, convert wrap raster [⟨f, .docx⟩] options = .ok r
        ∧ r.filename = replaceFirst f.name (".docx") (".pdf"))
    ∧ (∃ r, convert wrap raster [⟨f, .image⟩] options = .ok r
      ∧ r.filename = "converted-images.pdf")
    ∧ (∀ g : JsFile, ∃ r, convert wrap raster [⟨f, .text⟩, ⟨g, .text⟩] options = .ok r
      ∧ r.filename = "converted-texts.pdf")
    ∧ (∀ g : JsFile, ∃ r, convert wrap raster [⟨f, .html⟩, ⟨g, .html⟩] options = .ok r
      ∧ r.filename = "converted-documents.pdf")
    ∧ (∀ g : JsFile, ∃ r, convert wrap raster [⟨f, .markdown⟩, ⟨g, .markdown⟩] options = .ok r
      ∧ r.filename = "converted-documents.pdf")
    ∧ (∀ g : JsFile, ∃ r, convert wrap raster [⟨f, .docx⟩, ⟨g, .docx⟩] options = .ok r
      ∧ r.filename = "converted-documents.pdf")
    ∧ (∀ g : JsFile, ∃ r, convert wrap raster [⟨f, .image⟩, ⟨g, .image⟩] options = .ok r
      ∧ r.filename = "converted-images.pdf") := by
  refine ⟨⟨_, rfl, rfl⟩, ⟨_, rfl, rfl⟩, ⟨_, rfl, rfl⟩, ?_, ⟨_, rfl, rfl⟩,
    fun g => ⟨_, rfl, rfl⟩, fun g => ⟨_, rfl, rfl⟩, fun g => ⟨_, rfl, rfl⟩,
    fun g => ⟨_, rfl, rfl⟩, fun g => ⟨_, rfl, rfl⟩⟩
  intro h
  obtain ⟨xml, hxml⟩ := Option.ne_none_iff_exists'.1 h
  have hconv : convert wrap raster [⟨f, .docx⟩] options = docxToPdf raster f options := rfl
  rw [hconv]
  simp only [docxToPdf, hxml]
  exact ⟨_, rfl, rfl⟩

/-- Witness for the amended C9 at a concrete docx whose archive has the main
content entry. -/
theorem claim_C9_witness :
    ∃ r, convert wrap0 raster0 [⟨sampleDocx, .docx⟩] opts0 = .ok r
      ∧ r.filename = replaceFirst sampleDocx.name (".docx") (".pdf") :=
  (claim_C9_amended_filenames wrap0 raster0 opts0 sampleDocx).2.2.2.1 (by decide)

/-- When the batch is nonempty and not single-typed, convert takes the mixed
branch: the first nonempty group in priority order is converted. -/
theorem convert_mixed_branch (wrap : String → ℚ → List String)
    (raster : String → ℚ → ℕ) (files : List ConvertibleFile)
    (options : ConversionOptions)
    (h0 : ¬ files.length = 0) (h1 : ¬ (typesOf files).length = 1) :
    convert wrap raster files options =
      (if 0 < (imageGroup files).length then imagesToPdf (imageGroup files) options
       else if 0 < (textGroup files).length then
         textsToSinglePdf wrap (textGroup files) options
       else if 0 < (htmlGroup files).length then
         htmlsToSinglePdf raster (htmlGroup files) options
       else docxsToSinglePdf raster (docxGroup files) options) := by
  simp only [convert]
  rw [if_neg h0, if_neg h1]

/-- C1: for a batch with at least two distinct detected types, convert
dispatches to the highest-priority nonempty group in the fixed order
image > text > html/markdown > docx and converts only that group's files;
in particular a mixed batch of two images and one text file converts only
the images, producing page count 2 (the image count). -/
theorem claim_C1_mixed_priority (wrap : String → ℚ → List String)
    (raster : String → ℚ → ℕ) (files : List ConvertibleFile)
    (options : ConversionOptions)
    (hmixed : 2 ≤ (typesOf files).length) :
    ((¬ imageGroup files = []) →
      convert wrap raster files options = imagesToPdf (imageGroup files) options)
    ∧ (imageGroup files = [] → ¬ textGroup files = [] →
      convert wrap raster files options = textsToSinglePdf wrap (textGroup files) options)
    ∧ (imageGroup files = [] → textGroup files = [] → ¬ htmlGroup files = [] →
      convert wrap raster files options = htmlsToSinglePdf raster (htmlGroup files) options)
    ∧ (imageGroup files = [] → textGroup files = [] → htmlGroup files = [] →
      convert wrap raster files options = docxsToSinglePdf raster (docxGroup files) options)
    ∧ (∀ f1 f2 f3 : ConvertibleFile, f1.ftype = .image → f2.ftype = .image →
      f3.ftype = .text →
      ∃ r, convert wrap raster [f1, f2, f3] options = .ok r ∧ r.pageCount = 2) := by
  have h0 : ¬ files.length = 0 := by
    intro h
    rw [List.length_eq_zero] at h
    subst h
    simp [typesOf] at hmixed
  have h1 : ¬ (typesOf files).length = 1 := by omega
  have hc := convert_mixed_branch wrap raster files options h0 h1
  refine ⟨?_, ?_, ?_, ?_, ?_⟩
  · intro himg
    rw [hc, if_pos (List.length_pos.2 himg)]
  · intro himg htext
    have e1 : ¬ 0 < (imageGroup files).length := by simp [himg]
    rw [hc, if_neg e1, if_pos (List.length_pos.2 htext)]
  · intro himg htext hhtml
    have e1 : ¬ 0 < (imageGroup files).length := by simp [himg]
    have e2 : ¬ 0 < (textGroup files).length := by simp [htext]
    rw [hc, if_neg e1, if_neg e2, if_pos (List.length_pos.2 hhtml)]
  · intro himg htext hhtml
    have e1 : ¬ 0 < (imageGroup files).length := by simp [himg]
    have e2 : ¬ 0 < (textGroup files).length := by simp [htext]
    have e3 : ¬ 0 < (htmlGroup files).length := by simp [hhtml]
    rw [hc, if_neg e1, if_neg e2, if_neg e3]
  · intro f1 f2 f3 hf1 hf2 hf3
    obtain ⟨g1, t1⟩ := f1
    obtain ⟨g2, t2⟩ := f2
    obtain ⟨g3, t3⟩ := f3
    have ht1 : t1 = FileType.image := hf1
    have ht2 : t2 = FileType.image := hf2
    have ht3 : t3 = FileType.text := hf3
    subst ht1; subst ht2; subst ht3
    exact ⟨⟨"converted-images.pdf", 2⟩, rfl, rfl⟩

/-- Witness for C1 at a concrete mixed batch of one image and one text
file. -/
theorem claim_C1_witness :
    convert wrap0 raster0 [⟨photoFile, .image⟩, ⟨noteFile, .text⟩] opts0
      = imagesToPdf (imageGroup [⟨photoFile, .image⟩, ⟨noteFile, .text⟩]) opts0 :=
  (claim_C1_mixed_priority wrap0 raster0
    [⟨photoFile, .image⟩, ⟨noteFile, .text⟩] opts0 (by decide)).1 (by decide)

/-- One step of the text-emission loop preserves the pagination invariant:
after `n` emitted lines (with `Kn` lines fitting per page), either nothing
was emitted yet (cursor at the top, no page started), or `n = Kn*q + r + 1`
lines have been emitted with `q+1` pages started and the cursor `r+1` slots
down the current page; and every drawn baseline is - at most
`pageHeight - margin`. -/
theorem emitLine_inv_step (pageH margin : ℚ) (Kn : ℕ) (hK1 : 1 ≤ Kn)
    (h6K : (Kn : ℚ) * 6 ≤ pageH - margin * 2)
    (hK6 : pageH - margin * 2 < ((Kn : ℚ) + 1) * 6)
    (st : TextLayout) (n : ℕ) (line : String)
    (hinv : ((n = 0 ∧ st.y = margin ∧ st.pageStarts = 0)
        ∨ (∃ q r : ℕ, n = Kn * q + r + 1 ∧ r + 1 ≤ Kn
            ∧ st.y = margin + ((r : ℚ) + 1) * 6 ∧ st.pageStarts = q + 1))
      ∧ ∀ b ∈ st.baselines, b ≤ pageH - margin) :
    ((n + 1 = 0 ∧ (emitLine pageH margin st line).y = margin
        ∧ (emitLine pageH margin st line).pageStarts = 0)
      ∨ (∃ q r : ℕ, n + 1 = Kn * q + r + 1 ∧ r + 1 ≤ Kn
          ∧ (emitLine pageH margin st line).y = margin + ((r : ℚ) + 1) * 6
          ∧ (emitLine pageH margin st line).pageStarts = q + 1))
      ∧ ∀ b ∈ (emitLine pageH margin st line).baselines, b ≤ pageH - margin := by
  obtain ⟨hstate, hb⟩ := hinv
  have hK1Q : (1 : ℚ) ≤ (Kn : ℚ) := by exact_mod_cast hK1
  rcases hstate with ⟨hn0, hy, hs⟩ | ⟨q, r, hn, hrK, hy, hs⟩
  · -- nothing emitted yet: the first line fits on the open page
    have hcond : ¬ st.y + LINE_HEIGHT > pageH - margin := by
      rw [hy]
      simp only [LINE_HEIGHT]
      push_neg
      nlinarith
    simp only [emitLine, if_neg hcond]
    rw [if_pos hy]
    refine ⟨Or.inr ⟨0, 0, by omega, by omega, ?_, by rw [hs]⟩, ?_⟩
    · show st.y + LINE_HEIGHT = margin + (((0 : ℕ) : ℚ) + 1) * 6
      rw [hy]
      simp only [LINE_HEIGHT]
      push_cast
      ring
    · intro b hbm
      rcases List.mem_append.1 hbm with h | h
      · exact hb b h
      · rw [List.mem_singleton] at h
        subst h
        rw [hy]
        simp only [LINE_HEIGHT]
        nlinarith
  · have hrQ : (0 : ℚ) ≤ (r : ℚ) := by positivity
    by_cases hbreak : r + 1 = Kn
    · -- the current page is full: a page break happens first
      have hKQ : ((r : ℚ) + 1) = (Kn : ℚ) := by exact_mod_cast congrArg (Nat.cast (R := ℚ)) hbreak
      have hcond : st.y + LINE_HEIGHT > pageH - margin := by
        rw [hy, hKQ]
        simp only [LINE_HEIGHT]
        nlinarith
      simp only [emitLine, if_pos hcond]
      simp only [if_true]
      refine ⟨Or.inr ⟨q + 1, 0, by rw [Nat.mul_succ]; omega, by omega, ?_, ?_⟩, ?_⟩
      · show margin + LINE_HEIGHT = margin + (((0 : ℕ) : ℚ) + 1) * 6
        simp only [LINE_HEIGHT]
        push_cast
        ring
      · show st.pageStarts + 1 = q + 1 + 1
        rw [hs]
      · intro b hbm
        rcases List.mem_append.1 hbm with h | h
        · exact hb b h
        · rw [List.mem_singleton] at h
          subst h
          show margin + LINE_HEIGHT ≤ pageH - margin
          simp only [LINE_HEIGHT]
          nlinarith
    · -- the next line still fits on the current page
      have hr2 : (r : ℚ) + 2 ≤ (Kn : ℚ) := by
        have : r + 2 ≤ Kn := by omega
        exact_mod_cast this
      have hcond : ¬ st.y + LINE_HEIGHT > pageH - margin := by
        rw [hy]
        simp only [LINE_HEIGHT]
        push_neg
        nlinarith
      have hym : ¬ st.y = margin := by
        rw [hy]
        intro hcontra
        nlinarith
      simp only [emitLine, if_neg hcond]
      rw [if_neg hym]
      refine ⟨Or.inr ⟨q, r + 1, by omega, by omega, ?_, by rw [hs]⟩, ?_⟩
      · show st.y + LINE_HEIGHT = margin + (((r + 1 : ℕ) : ℚ) + 1) * 6
        rw [hy]
        simp only [LINE_HEIGHT]
        push_cast
        ring
      · intro b hbm
        rcases List.mem_append.1 hbm with h | h
        · exact hb b h
        · rw [List.mem_singleton] at h
          subst h
          rw [hy]
          simp only [LINE_HEIGHT]
          nlinarith

/-- The emission loop preserves the pagination invariant across any list of
lines. -/
theorem textLayout_fold_inv (pageH margin : ℚ) (Kn : ℕ) (hK1 : 1 ≤ Kn)
    (h6K : (Kn : ℚ) * 6 ≤ pageH - margin * 2)
    (hK6 : pageH - margin * 2 < ((Kn : ℚ) + 1) * 6) :
    ∀ (lines : List String) (st : TextLayout) (n : ℕ),
    (((n = 0 ∧ st.y = margin ∧ st.pageStarts = 0)
        ∨ (∃ q r : ℕ, n = Kn * q + r + 1 ∧ r + 1 ≤ Kn
            ∧ st.y = margin + ((r : ℚ) + 1) * 6 ∧ st.pageStarts = q + 1))
      ∧ ∀ b ∈ st.baselines, b ≤ pageH - margin) →
    (((n + lines.length = 0
        ∧ (lines.foldl (emitLine pageH margin) st).y = margin
        ∧ (lines.foldl (emitLine pageH margin) st).pageStarts = 0)
      ∨ (∃ q r : ℕ, n + lines.length = Kn * q + r + 1 ∧ r + 1 ≤ Kn
          ∧ (lines.foldl (emitLine pageH margin) st).y = margin + ((r : ℚ) + 1) * 6
          ∧ (lines.foldl (emitLine pageH margin) st).pageStarts = q + 1))
      ∧ ∀ b ∈ (lines.foldl (emitLine pageH margin) st).baselines,
          b ≤ pageH - margin) := by
  intro lines
  induction lines with
  | nil =>
      intro st n hinv
      simpa using hinv
  | cons line rest ih =>
      intro st n hinv
      have hstep := emitLine_inv_step pageH margin Kn hK1 h6K hK6 st n line hinv
      have := ih (emitLine pageH margin st line) (n + 1) hstep
      simp only [List.foldl_cons, List.length_cons]
      have harith : n + 1 + rest.length = n + (rest.length + 1) := by omega
      rw [harith] at this
      exact this

/-- With `Kn` lines per page, emitting `Kn*q + r + 1` lines (the last page
holding `r+1` lines) needs `q+1` pages: the ceiling of the division says
so. -/
theorem ceil_div_pages (Kn : ℕ) (hK1 : 1 ≤ Kn) (q r N : ℕ)
    (hN : N = Kn * q + r + 1) (hr : r + 1 ≤ Kn) :
    ⌈(N : ℚ) / (Kn : ℚ)⌉ = q + 1 := by
  have hKQ : (0 : ℚ) < (Kn : ℚ) := by exact_mod_cast hK1
  rw [Int.ceil_eq_iff]
  constructor
  · rw [lt_div_iff₀ hKQ]
    have h1 : Kn * q < N := by omega
    have h1Q : ((Kn * q : ℕ) : ℚ) < (N : ℚ) := by exact_mod_cast h1
    push_cast at h1Q ⊢
    nlinarith
  · rw [div_le_iff₀ hKQ]
    have h2 : N ≤ Kn * (q + 1) := by rw [Nat.mul_succ]; omega
    have h2Q : (N : ℚ) ≤ ((Kn * (q + 1) : ℕ) : ℚ) := by exact_mod_cast h2
    push_cast at h2Q ⊢
    nlinarith

/-- C4: the plain-text converter's reported page count equals the number of
page-start events of the emission loop (lines drawn with the cursor at the
top margin), this count equals
`ceil(wrapped_line_count / floor(content_height / LINE_HEIGHT))`, and no
drawn baseline exceeds the page's bottom margin.  The hypothesis states that
at least one line fits per page, which the ConversionOptions invariant
(margin smaller than half the page's shorter dimension) guarantees. -/
theorem claim_C4_text_pagination (wrap : String → ℚ → List String) (file : JsFile)
    (options : ConversionOptions)
    (hK : 1 ≤ ⌊((PAGE_SIZES options.pageSize).height - options.margin * 2) / LINE_HEIGHT⌋) :
    (textToPdf wrap file options).pageCount
      = ((textLayoutRun (PAGE_SIZES options.pageSize).height options.margin
          (wrap file.content ((PAGE_SIZES options.pageSize).width - options.margin * 2))).pageStarts : ℤ)
    ∧ (textToPdf wrap file options).pageCount
      = ⌈((wrap file.content ((PAGE_SIZES options.pageSize).width - options.margin * 2)).length : ℚ)
          / ((⌊((PAGE_SIZES options.pageSize).height - options.margin * 2) / LINE_HEIGHT⌋ : ℤ) : ℚ)⌉
    ∧ ∀ b ∈ (textLayoutRun (PAGE_SIZES options.pageSize).height options.margin
          (wrap file.content ((PAGE_SIZES options.pageSize).width - options.margin * 2))).baselines,
        b ≤ (PAGE_SIZES options.pageSize).height - options.margin := by
  have hcount : (textToPdf wrap file options).pageCount
      = ⌈((wrap file.content ((PAGE_SIZES options.pageSize).width - options.margin * 2)).length : ℚ)
          / ((⌊((PAGE_SIZES options.pageSize).height - options.margin * 2) / LINE_HEIGHT⌋ : ℤ) : ℚ)⌉ := rfl
  have hLH : LINE_HEIGHT = (6 : ℚ) := rfl
  rw [hLH] at hK
  have hK0 : (0 : ℤ) ≤ ⌊((PAGE_SIZES options.pageSize).height - options.margin * 2) / 6⌋ := by
    omega
  have hKn1 : 1 ≤ (⌊((PAGE_SIZES options.pageSize).height - options.margin * 2) / 6⌋).toNat := by
    omega
  have hcast : (((⌊((PAGE_SIZES options.pageSize).height - options.margin * 2) / 6⌋).toNat : ℕ) : ℚ)
      = ((⌊((PAGE_SIZES options.pageSize).height - options.margin * 2) / 6⌋ : ℤ) : ℚ) := by
    have h := Int.toNat_of_nonneg hK0
    exact_mod_cast h
  have hfl : ((⌊((PAGE_SIZES options.pageSize).height - options.margin * 2) / 6⌋ : ℤ) : ℚ)
      ≤ ((PAGE_SIZES options.pageSize).height - options.margin * 2) / 6 :=
    Int.floor_le (((PAGE_SIZES options.pageSize).height - options.margin * 2) / 6)
  have hfl1 : ((PAGE_SIZES options.pageSize).height - options.margin * 2) / 6
      < ((⌊((PAGE_SIZES options.pageSize).height - options.margin * 2) / 6⌋ : ℤ) : ℚ) + 1 :=
    Int.lt_floor_add_one (((PAGE_SIZES options.pageSize).height - options.margin * 2) / 6)
  have h6K : (((⌊((PAGE_SIZES options.pageSize).height - options.margin * 2) / 6⌋).toNat : ℕ) : ℚ) * 6
      ≤ (PAGE_SIZES options.pageSize).height - options.margin * 2 := by
    rw [hcast]
    rw [le_div_iff₀ (by norm_num : (0 : ℚ) < 6)] at hfl
    linarith
  have hK6 : (PAGE_SIZES options.pageSize).height - options.margin * 2
      < ((((⌊((PAGE_SIZES options.pageSize).height - options.margin * 2) / 6⌋).toNat : ℕ) : ℚ) + 1) * 6 := by
    rw [hcast]
    rw [div_lt_iff₀ (by norm_num : (0 : ℚ) < 6)] at hfl1
    linarith
  have hinit : (((0 : ℕ) = 0 ∧ (⟨1, options.margin, [], 0⟩ : TextLayout).y = options.margin
        ∧ (⟨1, options.margin, [], 0⟩ : TextLayout).pageStarts = 0)
      ∨ (∃ q r : ℕ, (0 : ℕ) = (⌊((PAGE_SIZES options.pageSize).height - options.margin * 2) / 6⌋).toNat * q + r + 1
          ∧ r + 1 ≤ (⌊((PAGE_SIZES options.pageSize).height - options.margin * 2) / 6⌋).toNat
          ∧ (⟨1, options.margin, [], 0⟩ : TextLayout).y = options.margin + ((r : ℚ) + 1) * 6
          ∧ (⟨1, options.margin, [], 0⟩ : TextLayout).pageStarts = q + 1))
      ∧ ∀ b ∈ (⟨1, options.margin, [], 0⟩ : TextLayout).baselines,
          b ≤ (PAGE_SIZES options.pageSize).height - options.margin := by
    refine ⟨Or.inl ⟨rfl, rfl, rfl⟩, ?_⟩
    intro b hb
    cases hb
  have hfold := textLayout_fold_inv (PAGE_SIZES options.pageSize).height options.margin
    (⌊((PAGE_SIZES options.pageSize).height - options.margin * 2) / 6⌋).toNat
    hKn1 h6K hK6
    (wrap file.content ((PAGE_SIZES options.pageSize).width - options.margin * 2))
    ⟨1, options.margin, [], 0⟩ 0 hinit
  have hrun : textLayoutRun (PAGE_SIZES options.pageSize).height options.margin
      (wrap file.content ((PAGE_SIZES options.pageSize).width - options.margin * 2))
      = (wrap file.content ((PAGE_SIZES options.pageSize).width - options.margin * 2)).foldl
          (emitLine (PAGE_SIZES options.pageSize).height options.margin)
          ⟨1, options.margin, [], 0⟩ := rfl
  refine ⟨?_, hcount, ?_⟩
  · rw [hcount, hrun, hLH]
    rcases hfold.1 with ⟨hlen, _, hstarts⟩ | ⟨q, r, hN, hr, _, hstarts⟩
    · rw [Nat.zero_add] at hlen
      rw [hstarts, hlen]
      simp
    · rw [Nat.zero_add] at hN
      have hceil := ceil_div_pages
        (⌊((PAGE_SIZES options.pageSize).height - options.margin * 2) / 6⌋).toNat
        hKn1 q r
        (wrap file.content ((PAGE_SIZES options.pageSize).width - options.margin * 2)).length
        hN hr
      rw [hcast] at hceil
      rw [hstarts, hceil]
      push_cast
      ring
  · rw [hrun]
    exact hfold.2

/-- Witness for C4: three wrapped lines on A4 with 10 mm margins. -/
theorem claim_C4_witness :
    (textToPdf wrapThree noteFile opts0).pageCount
      = ((textLayoutRun (PAGE_SIZES opts0.pageSize).height opts0.margin
          (wrapThree noteFile.content ((PAGE_SIZES opts0.pageSize).width - opts0.margin * 2))).pageStarts : ℤ) := by
  refine (claim_C4_text_pagination wrapThree noteFile opts0 ?_).1
  rw [Int.le_floor]
  norm_num [PAGE_SIZES, opts0, LINE_HEIGHT]

end FileConv
